import Mathlib

set_option maxRecDepth 100000

/-!
Verification development for the UI generation / theme management core of the
`ai-coworker` backend (`backend/app/services/ui/framework_adapter.py` and
`backend/app/services/ui/theme_manager.py`).

Conventions of the embedding:
* Python `dict`s (which preserve insertion order) are modelled as association
  lists; Python `str` values are Lean `String`s.
* The adapter templates are Python f-strings.  Python's f-string escaping rules
  are applied faithfully: `{{` / `}}` denote literal braces, so the fragment
  `{{"".join(children)}}` in the React and Next.js templates emits the literal
  text `{"".join(children)}` and does NOT interpolate the children.  The
  fragment `{...props}` on line 56 of the React template is not a valid
  f-string interpolation in Python (it is rejected with a SyntaxError); it is
  modelled here as the literal text `{...props}`, which is the evident JSX
  spread the template describes.
* Literal braces, apostrophes, double quotes, backslashes and backticks inside
  Lean string literals are written with `\xNN` escapes throughout.
-/

/-! ## Character-list string predicates used for stating containment facts -/

/-- Tests whether the first character list is an initial segment of the second. -/
def listStarts : List Char → List Char → Bool
  | [], _ => true
  | _ :: _, [] => false
  | a :: as, b :: bs => a == b && listStarts as bs

/-- Tests whether the pattern occurs as a contiguous run inside the list. -/
def listHasSub : List Char → List Char → Bool
  | pat, [] => listStarts pat []
  | pat, c :: rest => listStarts pat (c :: rest) || listHasSub pat rest

/-- String-level wrapper: `pre` is a leading segment of `s`. -/
def strStartsWith (s pre : String) : Bool := listStarts pre.data s.data

/-- String-level wrapper: `suf` is a trailing segment of `s`. -/
def strEndsWith (s suf : String) : Bool := listStarts suf.data.reverse s.data.reverse

/-- String-level wrapper: `pat` occurs contiguously inside `s`. -/
def strContains (s pat : String) : Bool := listHasSub pat.data s.data

/-- Models Python's `str.lower` character by character (component names are
ASCII identifiers, for which `Char.toLower` and `str.lower` agree). -/
def pyLower (s : String) : String := ⟨s.data.map Char.toLower⟩

/-! ## Component tree (`ComponentDefinition` dataclass)

`props` maps a prop name to the textual form of its type descriptor, `styles`
maps a CSS property name to the textual form of its value (the Python code
interpolates both through f-strings, so only their string images matter), and
`framework_specific` is the open extension mapping, unused by every adapter. -/

inductive ComponentDefinition where
  | mk (name : String) (props : List (String × String))
      (children : List ComponentDefinition) (styles : List (String × String))
      (framework_specific : List (String × String))

/-- Accessor for the `name` field of a component definition. -/
def ComponentDefinition.name : ComponentDefinition → String
  | .mk n _ _ _ _ => n

/-- Accessor for the `children` field of a component definition. -/
def ComponentDefinition.children : ComponentDefinition → List ComponentDefinition
  | .mk _ _ cs _ _ => cs

/-! ## ReactAdapter -/

/-- Embeds `ReactAdapter.generate_styles`: `"\n    ".join(f"{prop}: {value};")`. -/
def ReactAdapter.generate_styles (styles : List (String × String)) : String :=
  String.intercalate "\n    " (styles.map (fun pv => pv.1 ++ ": " ++ pv.2 ++ ";"))

/-- Embeds `ReactAdapter.generate_props`: `"{ " + ", ".join(f"{name}: {type_info}") + " }"`. -/
def ReactAdapter.generate_props (props : List (String × String)) : String :=
  "\x7b " ++ String.intercalate ", " (props.map (fun nt => nt.1 ++ ": " ++ nt.2)) ++ " \x7d"

mutual

/-- Embeds `ReactAdapter.generate_component` (lines 38-61).  The child
renderings are computed exactly as in the source, but the template's
`{{"".join(children)}}` fragment is a brace-escaped literal, so they do not
appear in the output; line 56's `{...props}` (a Python f-string SyntaxError)
is modelled as literal text. -/
def ReactAdapter.generate_component : ComponentDefinition → String
  | .mk name props children styles _ =>
    let p := ReactAdapter.generate_props props
    let st := ReactAdapter.generate_styles styles
    let _cs := ReactAdapter.joinChildren children
    "\nimport React from \x27react\x27;\nimport styled from \x27styled-components\x27;\n\nconst Styled"
      ++ name ++ " = styled.div\x60\n    " ++ st ++ "\n\x60;\n\nexport const " ++ name
      ++ " = (" ++ p ++ ") => \x7b\n    return (\n        <Styled" ++ name
      ++ " \x7b...props\x7d>\n            \x7b\x22\x22.join(children)\x7d\n        </Styled"
      ++ name ++ ">\n    );\n\x7d;\n"

/-- Embeds `"".join` over the recursively generated children for the React adapter. -/
def ReactAdapter.joinChildren : List ComponentDefinition → String
  | [] => ""
  | c :: cs => ReactAdapter.generate_component c ++ ReactAdapter.joinChildren cs

end

/-! ## VueAdapter -/

/-- Embeds `VueAdapter.generate_styles`: `"\n".join(f"    {prop}: {value};")`. -/
def VueAdapter.generate_styles (styles : List (String × String)) : String :=
  String.intercalate "\n" (styles.map (fun pv => "    " ++ pv.1 ++ ": " ++ pv.2 ++ ";"))

/-- Embeds `VueAdapter.generate_props`. -/
def VueAdapter.generate_props (props : List (String × String)) : String :=
  "\x7b\n" ++ String.intercalate ",\n"
    (props.map (fun nt => "    " ++ nt.1 ++ ": \x7b type: " ++ nt.2 ++ " \x7d")) ++ "\n\x7d"

mutual

/-- Embeds `VueAdapter.generate_component` (lines 76-103); here the children
fragment `{"".join(children)}` is a genuine interpolation. -/
def VueAdapter.generate_component : ComponentDefinition → String
  | .mk name props children styles _ =>
    let p := VueAdapter.generate_props props
    let st := VueAdapter.generate_styles styles
    let cs := VueAdapter.joinChildren children
    "\n<template>\n    <div class=\x22" ++ pyLower name ++ "\x22>\n        " ++ cs
      ++ "\n    </div>\n</template>\n\n<script>\nexport default \x7b\n    name: \x27" ++ name
      ++ "\x27,\n    props: " ++ p ++ "\n\x7d\n</script>\n\n<style scoped>\n." ++ pyLower name
      ++ " \x7b\n    " ++ st ++ "\n\x7d\n</style>\n"

/-- Embeds `"".join` over the recursively generated children for the Vue adapter. -/
def VueAdapter.joinChildren : List ComponentDefinition → String
  | [] => ""
  | c :: cs => VueAdapter.generate_component c ++ VueAdapter.joinChildren cs

end

/-! ## SvelteAdapter -/

/-- Embeds `SvelteAdapter.generate_styles`: `"\n".join(f"        {prop}: {value};")`. -/
def SvelteAdapter.generate_styles (styles : List (String × String)) : String :=
  String.intercalate "\n" (styles.map (fun pv => "        " ++ pv.1 ++ ": " ++ pv.2 ++ ";"))

/-- Embeds `SvelteAdapter.generate_props`: `"\n    ".join(f"export let {name};")`. -/
def SvelteAdapter.generate_props (props : List (String × String)) : String :=
  String.intercalate "\n    " (props.map (fun nt => "export let " ++ nt.1 ++ ";"))

mutual

/-- Embeds `SvelteAdapter.generate_component` (lines 118-140); the children
fragment is a genuine interpolation. -/
def SvelteAdapter.generate_component : ComponentDefinition → String
  | .mk name props children styles _ =>
    let p := SvelteAdapter.generate_props props
    let st := SvelteAdapter.generate_styles styles
    let cs := SvelteAdapter.joinChildren children
    "\n<script>\n    " ++ p ++ "\n</script>\n\n<div class=\x22" ++ pyLower name ++ "\x22>\n    "
      ++ cs ++ "\n</div>\n\n<style>\n    ." ++ pyLower name ++ " \x7b\n        " ++ st
      ++ "\n    \x7d\n</style>\n"

/-- Embeds `"".join` over the recursively generated children for the Svelte adapter. -/
def SvelteAdapter.joinChildren : List ComponentDefinition → String
  | [] => ""
  | c :: cs => SvelteAdapter.generate_component c ++ SvelteAdapter.joinChildren cs

end

/-! ## NextJSAdapter -/

/-- Embeds `NextJSAdapter.generate_styles`: `"\n".join(f"    {prop}: {value};")`. -/
def NextJSAdapter.generate_styles (styles : List (String × String)) : String :=
  String.intercalate "\n" (styles.map (fun pv => "    " ++ pv.1 ++ ": " ++ pv.2 ++ ";"))

/-- Embeds `NextJSAdapter.generate_props`: `"{ " + ", ".join(f"{name}") + " }"`. -/
def NextJSAdapter.generate_props (props : List (String × String)) : String :=
  "\x7b " ++ String.intercalate ", " (props.map (fun nt => nt.1)) ++ " \x7d"

mutual

/-- Embeds `NextJSAdapter.generate_component` (lines 155-179).  As in the React
adapter, `{{"".join(children)}}` is a brace-escaped literal, so the computed
child renderings never reach the output. -/
def NextJSAdapter.generate_component : ComponentDefinition → String
  | .mk name props children styles _ =>
    let p := NextJSAdapter.generate_props props
    let st := NextJSAdapter.generate_styles styles
    let _cs := NextJSAdapter.joinChildren children
    "\n\x27use client\x27;\n\nimport styled from \x27styled-components\x27;\n\nconst Styled"
      ++ name ++ " = styled.div\x60\n    " ++ st ++ "\n\x60;\n\nexport default function " ++ name
      ++ "(" ++ p ++ ") \x7b\n    return (\n        <Styled" ++ name
      ++ ">\n            \x7b\x22\x22.join(children)\x7d\n        </Styled" ++ name
      ++ ">\n    );\n\x7d\n"

/-- Embeds `"".join` over the recursively generated children for the Next.js adapter. -/
def NextJSAdapter.joinChildren : List ComponentDefinition → String
  | [] => ""
  | c :: cs => NextJSAdapter.generate_component c ++ NextJSAdapter.joinChildren cs

end

/-! ## Generator dispatcher (`UIGenerator`) -/

/-- Embeds the `UIFramework` enum. -/
inductive UIFramework where
  | react | vue | svelte | nextjs
deriving DecidableEq

/-- A value passed as the `framework` argument of `UIGenerator.generate_component`.
Python is dynamically typed: the caller may pass one of the `UIFramework`
members, or any other value (modelled by its textual form), which is then
absent from the adapter registry. -/
inductive Target where
  | fw (f : UIFramework)
  | other (v : String)
deriving DecidableEq

/-- Embeds the `self.adapters` registry dictionary built in `UIGenerator.__init__`. -/
def UIGenerator.adapters : List (Target × (ComponentDefinition → String)) :=
  [(.fw .react, ReactAdapter.generate_component),
   (.fw .vue, VueAdapter.generate_component),
   (.fw .svelte, SvelteAdapter.generate_component),
   (.fw .nextjs, NextJSAdapter.generate_component)]

/-- Embeds `dict.get` on the adapter registry. -/
def findAdapter : List (Target × (ComponentDefinition → String)) → Target →
    Option (ComponentDefinition → String)
  | [], _ => none
  | (k, g) :: rest, t => if k = t then some g else findAdapter rest t

/-- Error raised by the dispatcher (`raise ValueError(f"Unsupported framework: ...")`). -/
inductive GenError where
  | unsupportedTarget
deriving DecidableEq

/-- Embeds `UIGenerator.generate_component` (lines 202-211): resolve the target
against the registry, fail when absent, otherwise delegate to the adapter. -/
def UIGenerator.generate_component (d : ComponentDefinition) (t : Target) :
    Except GenError String :=
  match findAdapter UIGenerator.adapters t with
  | none => .error .unsupportedTarget
  | some g => .ok (g d)

/-! Concrete component trees used by the scenario claims. -/

/-- The tree of the spec's concrete scenario:
`{name:"Button", props:{label:"string"}, children:[], styles:{color:"red"}}`. -/
def buttonDef : ComponentDefinition :=
  .mk "Button" [("label", "string")] [] [("color", "red")] []

/-- Rendering of `buttonDef` by the React adapter. -/
def reactButtonCode : String := ReactAdapter.generate_component buttonDef

/-- A child component used to exercise child-embedding. -/
def iconDef : ComponentDefinition := .mk "Icon" [] [] [] []

/-- The `Button` tree with one `Icon` child. -/
def buttonWithChildDef : ComponentDefinition :=
  .mk "Button" [("label", "string")] [iconDef] [("color", "red")] []

/-! ## Raw JSON payloads

`JValue` models the JSON-representable Python values a theme payload is made
of (the theme data model uses only strings, objects and arrays; objects are
association lists in insertion order, duplicate keys being unrepresentable in
a Python `dict`). -/

inductive JValue where
  | str (s : String)
  | obj (fields : List (String × JValue))
  | arr (elems : List JValue)

/-- A raw theme payload: the `Dict[str, Any]` passed to `_parse_theme`. -/
abbrev RawDict := List (String × JValue)

/-- Association-list lookup, modelling `dict[key]` / `dict.get(key)`. -/
def lookupField : RawDict → String → Option JValue
  | [], _ => none
  | (k, v) :: rest, key => if k == key then some v else lookupField rest key

/-- Failures surfaced by the theme subsystem.  `keyError` models Python's
`KeyError` on a missing dict key, `typeError` the `TypeError` raised by
dataclass keyword construction with wrong keys (and, in this stricter
embedding, a value of the wrong shape), `valueError` the `ValueError` raised
by `ColorScheme(...)` on a bad scheme string, and `notFound` /
`unsupportedFormat` the two `ValueError`s raised by the store operations. -/
inductive ThemeError where
  | keyError (k : String)
  | typeError (msg : String)
  | valueError (msg : String)
  | notFound (name : String)
  | unsupportedFormat (format : String)

/-- Tests whether an error belongs to the spec's ValidationFailure taxonomy
(the failures `_parse_theme` can produce). -/
def ThemeError.isValidationFailure : ThemeError → Bool
  | .keyError _ => true
  | .typeError _ => true
  | .valueError _ => true
  | .notFound _ => false
  | .unsupportedFormat _ => false

/-- Holds when a parse result is a ValidationFailure (and not a success). -/
def failsValidation {α : Type} : Except ThemeError α → Bool
  | .ok _ => false
  | .error e => e.isValidationFailure

/-- Embeds `dict[key]`: a missing key raises `KeyError`. -/
def getField (d : RawDict) (k : String) : Except ThemeError JValue :=
  match lookupField d k with
  | some v => .ok v
  | none => .error (.keyError k)

/-- Requires a JSON object. -/
def asObj : JValue → Except ThemeError RawDict
  | .obj fields => .ok fields
  | _ => .error (.typeError "expected object")

/-- Requires a JSON string. -/
def asStr : JValue → Except ThemeError String
  | .str s => .ok s
  | _ => .error (.typeError "expected string")

/-- Requires a JSON array. -/
def asArr : JValue → Except ThemeError (List JValue)
  | .arr elems => .ok elems
  | _ => .error (.typeError "expected array")

/-- Looks a key up and requires an object value. -/
def getObj (d : RawDict) (k : String) : Except ThemeError RawDict :=
  getField d k >>= asObj

/-- Looks a key up and requires a string value. -/
def getStr (d : RawDict) (k : String) : Except ThemeError String :=
  getField d k >>= asStr

/-- Looks a key up and requires an array value. -/
def getArr (d : RawDict) (k : String) : Except ThemeError (List JValue) :=
  getField d k >>= asArr

/-! ## Theme data model (dataclasses of `theme_manager.py`)

The Python dataclasses carry type annotations that are not enforced at
runtime; the leaf values are used only through f-string interpolation and
`.items()` iteration downstream, so this embedding types them as the annotated
shapes and `parse_theme` checks those shapes where Python would defer a shape
fault to the export stage. -/

/-- Embeds the `ColorScheme` enum. -/
inductive ColorScheme where
  | light | dark
deriving DecidableEq, Inhabited

/-- Embeds `ColorScheme.value`. -/
def ColorScheme.value : ColorScheme → String
  | .light => "light"
  | .dark => "dark"

/-- Embeds the `ColorPalette` dataclass: exactly nine fixed color slots. -/
structure ColorPalette where
  primary : String
  secondary : String
  accent : String
  background : String
  text : String
  error : String
  warning : String
  success : String
  info : String
deriving Inhabited

/-- Embeds `palette.__dict__.items()`: the nine slots in declaration order. -/
def ColorPalette.items (p : ColorPalette) : List (String × String) :=
  [("primary", p.primary), ("secondary", p.secondary), ("accent", p.accent),
   ("background", p.background), ("text", p.text), ("error", p.error),
   ("warning", p.warning), ("success", p.success), ("info", p.info)]

/-- Embeds the `Typography` dataclass. -/
structure Typography where
  font_family : String
  font_size_base : String
  line_height_base : String
  headings : List (String × List (String × String))
  body : List (String × String)
deriving Inhabited

/-- Embeds the `Spacing` dataclass. -/
structure Spacing where
  unit : String
  scale : List String
  custom : List (String × String)
deriving Inhabited

/-- Embeds the `Breakpoints` dataclass: exactly six fixed named values. -/
structure Breakpoints where
  xs : String
  sm : String
  md : String
  lg : String
  xl : String
  xxl : String
deriving Inhabited

/-- Embeds `breakpoints.__dict__.items()`: the six fields in declaration order. -/
def Breakpoints.items (b : Breakpoints) : List (String × String) :=
  [("xs", b.xs), ("sm", b.sm), ("md", b.md), ("lg", b.lg), ("xl", b.xl), ("xxl", b.xxl)]

/-- Embeds the `Theme` dataclass.  `custom` is `Dict[str, Any]` taken verbatim
from the payload (or defaulted), so it stays a raw `JValue`. -/
structure Theme where
  name : String
  color_schemes : List (ColorScheme × ColorPalette)
  typography : Typography
  spacing : Spacing
  breakpoints : Breakpoints
  custom : JValue

instance : Inhabited Theme :=
  ⟨⟨"", [], default, default, default, .obj []⟩⟩

/-! ## Theme parsing (`ThemeManager._parse_theme`) -/

/-- The nine fixed palette slot names, in dataclass declaration order. -/
def paletteSlots : List String :=
  ["primary", "secondary", "accent", "background", "text", "error", "warning",
   "success", "info"]

/-- The six fixed breakpoint names, in dataclass declaration order. -/
def breakpointNames : List String := ["xs", "sm", "md", "lg", "xl", "xxl"]

/-- Embeds keyword unpacking `Dataclass(**d)`: construction succeeds exactly
when the supplied keys are the required ones (a missing or unexpected keyword
raises `TypeError`).  On inputs with duplicate keys — unrepresentable as a
Python `dict` — the length test makes the check fail. -/
def exactKeys (d : RawDict) (req : List String) : Bool :=
  d.length == req.length && req.all (fun k => (lookupField d k).isSome)

/-- Embeds `ColorPalette(**colors)` (line 73). -/
def parsePalette (v : JValue) : Except ThemeError ColorPalette := do
  let colors ← asObj v
  if exactKeys colors paletteSlots then do
    let primary ← getStr colors "primary"
    let secondary ← getStr colors "secondary"
    let accent ← getStr colors "accent"
    let background ← getStr colors "background"
    let text ← getStr colors "text"
    let error ← getStr colors "error"
    let warning ← getStr colors "warning"
    let success ← getStr colors "success"
    let info ← getStr colors "info"
    pure ⟨primary, secondary, accent, background, text, error, warning, success, info⟩
  else
    .error (.typeError "ColorPalette keywords mismatch")

/-- Embeds `ColorScheme(scheme)`: any string other than `"light"` / `"dark"`
raises `ValueError`. -/
def parseScheme (s : String) : Except ThemeError ColorScheme :=
  if s == "light" then .ok .light
  else if s == "dark" then .ok .dark
  else .error (.valueError s)

/-- Embeds the `color_schemes` dict comprehension (lines 72-75), in payload
order. -/
def parseSchemes : RawDict → Except ThemeError (List (ColorScheme × ColorPalette))
  | [] => .ok []
  | (s, v) :: rest => do
    let sc ← parseScheme s
    let p ← parsePalette v
    let tl ← parseSchemes rest
    pure ((sc, p) :: tl)

/-- Parses an object of string values (the `body`, heading-style and
`spacing.custom` mappings). -/
def parseStrMap : RawDict → Except ThemeError (List (String × String))
  | [] => .ok []
  | (k, v) :: rest => do
    let s ← asStr v
    let tl ← parseStrMap rest
    pure ((k, s) :: tl)

/-- Parses the `headings` mapping from heading level to a style mapping. -/
def parseHeadings : RawDict → Except ThemeError (List (String × List (String × String)))
  | [] => .ok []
  | (k, v) :: rest => do
    let fields ← asObj v
    let m ← parseStrMap fields
    let tl ← parseHeadings rest
    pure ((k, m) :: tl)

/-- Parses an array of strings (the `spacing.scale` list). -/
def parseStrList : List JValue → Except ThemeError (List String)
  | [] => .ok []
  | v :: rest => do
    let s ← asStr v
    let tl ← parseStrList rest
    pure (s :: tl)

/-- Embeds the `Typography(...)` construction (lines 77-83); the five sub-keys
are looked up under `theme_data["typography"]` in source order. -/
def parseTypography (fields : RawDict) : Except ThemeError Typography := do
  let font_family ← getStr fields "font_family"
  let font_size_base ← getStr fields "font_size_base"
  let line_height_base ← getStr fields "line_height_base"
  let headingsRaw ← getObj fields "headings"
  let headings ← parseHeadings headingsRaw
  let bodyRaw ← getObj fields "body"
  let body ← parseStrMap bodyRaw
  pure ⟨font_family, font_size_base, line_height_base, headings, body⟩

/-- Embeds the `Spacing(...)` construction (lines 85-89). -/
def parseSpacing (fields : RawDict) : Except ThemeError Spacing := do
  let unit ← getStr fields "unit"
  let scaleRaw ← getArr fields "scale"
  let scale ← parseStrList scaleRaw
  let customRaw ← getObj fields "custom"
  let custom ← parseStrMap customRaw
  pure ⟨unit, scale, custom⟩

/-- Embeds `Breakpoints(**theme_data["breakpoints"])` (line 91). -/
def parseBreakpoints (v : JValue) : Except ThemeError Breakpoints := do
  let fields ← asObj v
  if exactKeys fields breakpointNames then do
    let xs ← getStr fields "xs"
    let sm ← getStr fields "sm"
    let md ← getStr fields "md"
    let lg ← getStr fields "lg"
    let xl ← getStr fields "xl"
    let xxl ← getStr fields "xxl"
    pure ⟨xs, sm, md, lg, xl, xxl⟩
  else
    .error (.typeError "Breakpoints keywords mismatch")

/-- Embeds `ThemeManager._parse_theme` (lines 70-100), in source evaluation
order: the `color_schemes` comprehension, then typography, spacing,
breakpoints, and finally `name` and `custom` as `Theme(...)` is assembled.
`name` is read with `theme_data["name"]` (KeyError when absent) while `custom`
uses `theme_data.get("custom", {})` and is default-filled with the empty
mapping when absent. -/
def parse_theme (td : RawDict) : Except ThemeError Theme := do
  let schemesRaw ← getObj td "color_schemes"
  let color_schemes ← parseSchemes schemesRaw
  let typographyRaw ← getObj td "typography"
  let typography ← parseTypography typographyRaw
  let spacingRaw ← getObj td "spacing"
  let spacing ← parseSpacing spacingRaw
  let breakpointsRaw ← getField td "breakpoints"
  let breakpoints ← parseBreakpoints breakpointsRaw
  let name ← getStr td "name"
  let custom := (lookupField td "custom").getD (.obj [])
  pure ⟨name, color_schemes, typography, spacing, breakpoints, custom⟩


/-! ## Theme store (`ThemeManager` state and operations)

The store state pairs the persisted-record directory (`files`, keyed by the
filename stem `<name>` of `<name>.json`, each record holding the raw payload
the stdlib `json.dump` serialized) with the in-memory index (`themes`).
Filesystem faults (StorageFailure) are outside this model. -/

structure ThemeManager where
  files : List (String × RawDict)
  themes : List (String × Theme)

/-- Embeds `d[key] = value` on an insertion-ordered dict: replace in place if
the key exists, append otherwise. -/
def setKey {α : Type} : List (String × α) → String → α → List (String × α)
  | [], k, v => [(k, v)]
  | (k', v') :: rest, k, v =>
    if k' == k then (k, v) :: rest else (k', v') :: setKey rest k v

/-- Embeds `del d[key]` (and the record removal) on an insertion-ordered dict. -/
def delKey {α : Type} : List (String × α) → String → List (String × α)
  | [], _ => []
  | (k', v') :: rest, k =>
    if k' == k then rest else (k', v') :: delKey rest k

/-- Association lookup returning the stored value (`dict.get`). -/
def getVal {α : Type} : List (String × α) → String → Option α
  | [], _ => none
  | (k', v') :: rest, k => if k' == k then some v' else getVal rest k

/-- Embeds `ThemeManager.create_theme` (lines 102-112): parse, then write the
raw payload to `<theme.name>.json`, then insert into the index under
`theme.name`.  A parse failure leaves the store untouched. -/
def ThemeManager.create_theme (m : ThemeManager) (theme_data : RawDict) :
    Except ThemeError Theme × ThemeManager :=
  match parse_theme theme_data with
  | .error e => (.error e, m)
  | .ok theme =>
    (.ok theme,
     ⟨setKey m.files theme.name theme_data, setKey m.themes theme.name theme⟩)

/-- Embeds `ThemeManager.get_theme` (lines 114-116): pure index lookup. -/
def ThemeManager.get_theme (m : ThemeManager) (name : String) : Option Theme :=
  getVal m.themes name

/-- Embeds `ThemeManager.update_theme` (lines 118-131): NotFound when `name`
is absent from the index; otherwise parse the new payload, overwrite the
record keyed by `name` (not by the payload's own name) and replace the index
entry under `name`. -/
def ThemeManager.update_theme (m : ThemeManager) (name : String)
    (theme_data : RawDict) : Except ThemeError Theme × ThemeManager :=
  match getVal m.themes name with
  | none => (.error (.notFound name), m)
  | some _ =>
    match parse_theme theme_data with
    | .error e => (.error e, m)
    | .ok theme =>
      (.ok theme, ⟨setKey m.files name theme_data, setKey m.themes name theme⟩)

/-- Embeds `ThemeManager.delete_theme` (lines 133-140): NotFound when absent,
otherwise remove the record and the index entry. -/
def ThemeManager.delete_theme (m : ThemeManager) (name : String) :
    Except ThemeError Unit × ThemeManager :=
  match getVal m.themes name with
  | none => (.error (.notFound name), m)
  | some _ => (.ok (), ⟨delKey m.files name, delKey m.themes name⟩)

/-! ## Theme export (`_export_css` / `_export_scss`)

The Python code accumulates the output lines in a list and joins them with
newlines; the embeddings keep that line list explicit. -/

/-- Embeds the `css` list built by `ThemeManager._export_css` (lines 155-187). -/
def ThemeManager.export_css_lines (theme : Theme) : List String :=
  [":root \x7b"]
  ++ theme.color_schemes.flatMap (fun sp =>
       sp.2.items.map (fun cv =>
         "  --color-" ++ sp.1.value ++ "-" ++ cv.1 ++ ": " ++ cv.2 ++ ";"))
  ++ ["  --font-family: " ++ theme.typography.font_family ++ ";",
      "  --font-size-base: " ++ theme.typography.font_size_base ++ ";",
      "  --line-height-base: " ++ theme.typography.line_height_base ++ ";"]
  ++ theme.typography.headings.flatMap (fun hp =>
       hp.2.map (fun pv =>
         "  --typography-" ++ hp.1 ++ "-" ++ pv.1 ++ ": " ++ pv.2 ++ ";"))
  ++ ["  --spacing-unit: " ++ theme.spacing.unit ++ ";"]
  ++ theme.spacing.scale.enum.map (fun iv =>
       "  --spacing-" ++ toString iv.1 ++ ": " ++ iv.2 ++ ";")
  ++ theme.breakpoints.items.map (fun bv =>
       "  --breakpoint-" ++ bv.1 ++ ": " ++ bv.2 ++ ";")
  ++ ["\x7d"]

/-- Embeds `ThemeManager._export_css`: the joined line list. -/
def ThemeManager.export_css (theme : Theme) : String :=
  String.intercalate "\n" (ThemeManager.export_css_lines theme)

/-- Embeds the `scss` list built by `ThemeManager._export_scss` (lines 189-224). -/
def ThemeManager.export_scss_lines (theme : Theme) : List String :=
  theme.color_schemes.flatMap (fun sp =>
    sp.2.items.map (fun cv =>
      "$color-" ++ sp.1.value ++ "-" ++ cv.1 ++ ": " ++ cv.2 ++ ";"))
  ++ ["$font-family: " ++ theme.typography.font_family ++ ";",
      "$font-size-base: " ++ theme.typography.font_size_base ++ ";",
      "$line-height-base: " ++ theme.typography.line_height_base ++ ";"]
  ++ ["$typography: ("]
  ++ theme.typography.headings.flatMap (fun hp =>
       ("  " ++ hp.1 ++ ": (")
       :: (hp.2.map (fun pv => "    " ++ pv.1 ++ ": " ++ pv.2 ++ ",")
           ++ ["  ),"]))
  ++ [");"]
  ++ ["$spacing-unit: " ++ theme.spacing.unit ++ ";"]
  ++ ["$spacing: ("]
  ++ theme.spacing.scale.enum.map (fun iv =>
       "  " ++ toString iv.1 ++ ": " ++ iv.2 ++ ",")
  ++ [");"]
  ++ ["$breakpoints: ("]
  ++ theme.breakpoints.items.map (fun bv => "  " ++ bv.1 ++ ": " ++ bv.2 ++ ",")
  ++ [");"]

/-- Embeds `ThemeManager._export_scss`: the joined line list. -/
def ThemeManager.export_scss (theme : Theme) : String :=
  String.intercalate "\n" (ThemeManager.export_scss_lines theme)

/-- Embeds `ThemeManager.export_theme` (lines 142-153): the name is resolved
first (NotFound on a miss), then the format is dispatched, any format other
than `"css"` / `"scss"` failing with UnsupportedFormat.  The operation reads
the store but never writes it. -/
def ThemeManager.export_theme (m : ThemeManager) (name : String)
    (format : String) : Except ThemeError String :=
  match ThemeManager.get_theme m name with
  | none => .error (.notFound name)
  | some theme =>
    if format == "css" then .ok (ThemeManager.export_css theme)
    else if format == "scss" then .ok (ThemeManager.export_scss theme)
    else .error (.unsupportedFormat format)

/-! ## Variable-entry classification for the export formats

A CSS variable entry is a custom-property line `  --name: value;`; every such
line emitted by `_export_css` starts with `"  --"` and no other emitted line
does.  An SCSS variable entry is either a top-level `$name: value;`
declaration or a `name: value,` entry inside one of the three emitted maps;
the structural lines (map openers, closers, `:root`-style braces) match
neither form. -/

/-- Classifies a CSS export line as a variable entry. -/
def isCssVarLine (l : String) : Bool := strStartsWith l "  --"

/-- Classifies an SCSS export line as a variable entry (scalar `$…;`
declaration or map entry `…: …,`). -/
def isScssVarLine (l : String) : Bool :=
  (strStartsWith l "$" && strEndsWith l ";")
  || (strEndsWith l "," && strContains l ": ")

/-- Number of variable entries in the CSS export of a theme. -/
def cssVarCount (theme : Theme) : Nat :=
  (ThemeManager.export_css_lines theme).countP isCssVarLine

/-- Number of variable entries in the SCSS export of a theme. -/
def scssVarCount (theme : Theme) : Nat :=
  (ThemeManager.export_scss_lines theme).countP isScssVarLine

/-- Total style-property count of the headings mapping of a theme. -/
def headingPropCount (theme : Theme) : Nat :=
  (theme.typography.headings.map (fun hp => hp.2.length)).sum

/-! ## JSON serialization of the persisted records

`create_theme` / `update_theme` write `json.dump(theme_data, f, indent=2)` and
`_load_themes` reads the records back with `json.load`.  Both are stdlib
functions, modelled here by a verified serializer and parser pair.  The model
differs from the stdlib only in the byte representation, never in the decoded
value: characters outside ASCII are emitted directly instead of through
`ensure_ascii` escapes, control characters use the uniform `\u00XX` spelling
instead of the short forms, and the emitted text is compact while `json.load`
additionally skips the inter-token whitespace `indent=2` inserts. -/

/-- The lowercase hex digit for a value below 16. -/
def hexDigitChar (n : Nat) : Char :=
  if n < 10 then Char.ofNat (48 + n) else Char.ofNat (87 + n)

/-- Numeric value of a lowercase hex digit. -/
def hexVal (c : Char) : Nat :=
  if 97 ≤ c.toNat then c.toNat - 87 else c.toNat - 48

/-- JSON string escaping for one character: quote and backslash get a
backslash escape, control characters a `\u00XX` escape, everything else is
emitted directly. -/
def escChar (c : Char) : List Char :=
  if c = '\x22' then ['\x5c', '\x22']
  else if c = '\x5c' then ['\x5c', '\x5c']
  else if c.toNat < 32 then
    ['\x5c', 'u', '0', '0', hexDigitChar (c.toNat / 16), hexDigitChar (c.toNat % 16)]
  else [c]

/-- JSON encoding of a string, quotes included. -/
def encodeString (s : String) : List Char :=
  '\x22' :: (s.data.flatMap escChar ++ ['\x22'])

mutual

/-- JSON serialization of a value (the model of `json.dump`'s output). -/
def jsonDumps : JValue → List Char
  | .str s => encodeString s
  | .obj [] => ['\x7b', '\x7d']
  | .obj (p :: rest) =>
    '\x7b' :: ((dumpPair p ++ dumpFieldsTail rest) ++ ['\x7d'])
  | .arr [] => ['[', ']']
  | .arr (v :: rest) =>
    '[' :: ((jsonDumps v ++ dumpElemsTail rest) ++ [']'])

/-- Serializes one `"key": value` member. -/
def dumpPair : String × JValue → List Char
  | (k, v) => encodeString k ++ (':' :: jsonDumps v)

/-- Serializes the comma-prefixed members after the first one. -/
def dumpFieldsTail : List (String × JValue) → List Char
  | [] => []
  | p :: rest => ',' :: (dumpPair p ++ dumpFieldsTail rest)

/-- Serializes the comma-prefixed array elements after the first one. -/
def dumpElemsTail : List JValue → List Char
  | [] => []
  | v :: rest => ',' :: (jsonDumps v ++ dumpElemsTail rest)

end

/-- Prepends a character to a string. -/
def strCons (c : Char) (s : String) : String := ⟨c :: s.data⟩

/-- Decodes a single-character escape. -/
def unescape (e : Char) : Option Char :=
  if e = '\x22' then some '\x22'
  else if e = '\x5c' then some '\x5c'
  else if e = '/' then some '/'
  else if e = 'n' then some '\n'
  else if e = 't' then some '\t'
  else if e = 'r' then some '\r'
  else if e = 'b' then some '\x08'
  else if e = 'f' then some '\x0c'
  else none

/-- Parses the body of a JSON string after the opening quote, returning the
decoded string and the input remaining after the closing quote. -/
def parseStringBody : List Char → Option (String × List Char)
  | [] => none
  | '\x22' :: rest => some ("", rest)
  | '\x5c' :: 'u' :: h1 :: h2 :: h3 :: h4 :: rest =>
    (parseStringBody rest).map (fun sr =>
      (strCons (Char.ofNat ((((hexVal h1 * 16 + hexVal h2) * 16 + hexVal h3) * 16
        + hexVal h4))) sr.1, sr.2))
  | '\x5c' :: e :: rest =>
    match unescape e with
    | some c => (parseStringBody rest).map (fun sr => (strCons c sr.1, sr.2))
    | none => none
  | c :: rest => (parseStringBody rest).map (fun sr => (strCons c sr.1, sr.2))

mutual

/-- Fuel-indexed recursive-descent JSON value parser (the model of
`json.load` on the grammar subset `jsonDumps` emits). -/
def parseVal : Nat → List Char → Option (JValue × List Char)
  | 0, _ => none
  | f + 1, input =>
    match input with
    | '\x22' :: rest => (parseStringBody rest).map (fun sr => (.str sr.1, sr.2))
    | '\x7b' :: rest =>
      match rest with
      | '\x7d' :: r => some (.obj [], r)
      | _ =>
        match parseFields f rest with
        | some (fs, '\x7d' :: r) => some (.obj fs, r)
        | _ => none
    | '[' :: rest =>
      match rest with
      | ']' :: r => some (.arr [], r)
      | _ =>
        match parseElems f rest with
        | some (vs, ']' :: r) => some (.arr vs, r)
        | _ => none
    | _ => none

/-- Parses a nonempty comma-separated member list. -/
def parseFields : Nat → List Char → Option (List (String × JValue) × List Char)
  | 0, _ => none
  | f + 1, input =>
    match input with
    | '\x22' :: rest =>
      match parseStringBody rest with
      | some (k, ':' :: r1) =>
        match parseVal f r1 with
        | some (v, ',' :: r2) =>
          match parseFields f r2 with
          | some (fs, r3) => some ((k, v) :: fs, r3)
          | none => none
        | some (v, r2) => some ([(k, v)], r2)
        | none => none
      | _ => none
    | _ => none

/-- Parses a nonempty comma-separated element list. -/
def parseElems : Nat → List Char → Option (List JValue × List Char)
  | 0, _ => none
  | f + 1, input =>
    match parseVal f input with
    | some (v, ',' :: r2) =>
      match parseElems f r2 with
      | some (vs, r3) => some (v :: vs, r3)
      | none => none
    | some (v, r2) => some ([v], r2)
    | none => none

end

/-- Parses a complete JSON document: the input must be consumed entirely. -/
def parseJson (s : String) : Option JValue :=
  match parseVal (s.data.length + 1) s.data with
  | some (v, []) => some v
  | _ => none

mutual

/-- Fuel sufficient for `parseVal` to decode the serialization of a value. -/
def jFuel : JValue → Nat
  | .str _ => 1
  | .obj fields => 1 + jFuelFields fields
  | .arr elems => 1 + jFuelElems elems

/-- Fuel sufficient for `parseFields` on the member list. -/
def jFuelFields : List (String × JValue) → Nat
  | [] => 0
  | p :: rest => 1 + Nat.max (jFuelPair p) (jFuelFields rest)

/-- Fuel needed for the value of one member. -/
def jFuelPair : String × JValue → Nat
  | (_, v) => jFuel v

/-- Fuel sufficient for `parseElems` on the element list. -/
def jFuelElems : List JValue → Nat
  | [] => 0
  | v :: rest => 1 + Nat.max (jFuel v) (jFuelElems rest)

end

/-- The serialized content of a persisted theme record (`json.dump` of the
raw payload dict). -/
def serialize_record (raw : RawDict) : String := ⟨jsonDumps (.obj raw)⟩

/-- Reading a persisted record back, as `_load_themes` does with `json.load`,
and requiring the top-level dict shape `_parse_theme` consumes. -/
def read_record (content : String) : Except ThemeError RawDict :=
  match parseJson content with
  | some (.obj fields) => .ok fields
  | some _ => .error (.typeError "record is not an object")
  | none => .error (.valueError "record is not valid JSON")

/-- The create-then-reload pipeline on one payload: serialize the raw payload
to its record, read the record back, and parse it as the startup load does. -/
def reload_theme (raw : RawDict) : Except ThemeError Theme :=
  read_record (serialize_record raw) >>= parse_theme

/-! ## Concrete payloads used by scenario theorems and witnesses -/

/-- A complete valid palette payload. -/
def lightPaletteRaw : JValue :=
  .obj [("primary", .str "#000"), ("secondary", .str "#111"),
        ("accent", .str "#0af"), ("background", .str "#fff"),
        ("text", .str "#222"), ("error", .str "#f00"),
        ("warning", .str "#fa0"), ("success", .str "#0a0"),
        ("info", .str "#07f")]

/-- A complete valid raw theme payload named `"A"`. -/
def rawThemeA : RawDict :=
  [("name", .str "A"),
   ("color_schemes", .obj [("light", lightPaletteRaw)]),
   ("typography", .obj
     [("font_family", .str "Inter"),
      ("font_size_base", .str "16px"),
      ("line_height_base", .str "1.5"),
      ("headings", .obj [("h1", .obj [("font_size", .str "2rem"),
                                      ("font_weight", .str "700")])]),
      ("body", .obj [("font_weight", .str "400")])]),
   ("spacing", .obj
     [("unit", .str "8px"),
      ("scale", .arr [.str "0px", .str "8px", .str "16px"]),
      ("custom", .obj [("gutter", .str "24px")])]),
   ("breakpoints", .obj
     [("xs", .str "0px"), ("sm", .str "576px"), ("md", .str "768px"),
      ("lg", .str "992px"), ("xl", .str "1200px"), ("xxl", .str "1400px")]),
   ("custom", .obj [("brand", .str "acme")])]

/-- The payload `rawThemeA` renamed to `"B"` (used to exercise `update_theme`
with a payload whose internal name differs from the target name). -/
def rawThemeB : RawDict := setKey rawThemeA "name" (.str "B")

/-- The theme `parse_theme` extracts from `rawThemeA`. -/
def themeA : Theme :=
  match parse_theme rawThemeA with
  | .ok t => t
  | .error _ => default


/-! ## Definitions supporting the claim statements -/

/-- The name stored inside a raw payload, when it is a string. -/
def rawName (d : RawDict) : Option String :=
  match lookupField d "name" with
  | some (.str s) => some s
  | _ => none

/-- One store mutation, as issued by a caller of the `ThemeManager`. -/
inductive StoreOp where
  | create (raw : RawDict)
  | update (name : String) (raw : RawDict)
  | delete (name : String)

/-- The store state after performing one operation (results are returned to
the caller and do not affect the state thread). -/
def applyOp (m : ThemeManager) : StoreOp → ThemeManager
  | .create raw => (ThemeManager.create_theme m raw).2
  | .update name raw => (ThemeManager.update_theme m name raw).2
  | .delete name => (ThemeManager.delete_theme m name).2

/-- The store state after a sequence of operations. -/
def runOps (m : ThemeManager) (ops : List StoreOp) : ThemeManager :=
  ops.foldl applyOp m

/-- An update is name-consistent when the payload's internal name equals the
targeted name; creates and deletes are unconstrained. -/
def goodOp : StoreOp → Bool
  | .create _ => true
  | .update name raw => rawName raw == some name
  | .delete _ => true

/-- The store invariant claimed by the spec: every index entry is keyed by the
name inside the stored `Theme`, and every persisted record is keyed by the
name inside its payload. -/
def storeConsistent (m : ThemeManager) : Bool :=
  m.themes.all (fun p => p.2.name == p.1)
    && m.files.all (fun q => rawName q.2 == some q.1)

/-- Key presence test on a raw dict. -/
def hasKey (d : RawDict) (k : String) : Bool := (lookupField d k).isSome

/-- The keys `_parse_theme` reads with a plain `dict[...]` lookup: `name`,
`color_schemes`, `breakpoints`, `typography` with its five sub-keys and
`spacing` with its three sub-keys.  Top-level `custom` is absent from this
list because the code reads it with `dict.get(..., {})`. -/
def requiredKeysPresent (td : RawDict) : Bool :=
  hasKey td "name" && hasKey td "color_schemes" && hasKey td "breakpoints"
  && (match lookupField td "typography" with
      | some (.obj f) =>
        hasKey f "font_family" && hasKey f "font_size_base"
          && hasKey f "line_height_base" && hasKey f "headings" && hasKey f "body"
      | _ => false)
  && (match lookupField td "spacing" with
      | some (.obj f) => hasKey f "unit" && hasKey f "scale" && hasKey f "custom"
      | _ => false)

/-- The key list of a raw dict. -/
def suppliedKeys (d : RawDict) : List String := d.map Prod.fst

/-- The payload names some color scheme that is neither `"light"` nor `"dark"`. -/
def badSchemeKey (td : RawDict) : Prop :=
  ∃ fields s v, lookupField td "color_schemes" = some (.obj fields)
    ∧ (s, v) ∈ fields ∧ s ≠ "light" ∧ s ≠ "dark"

/-- Some palette in the payload does not supply exactly the nine fixed slots. -/
def badPaletteKeys (td : RawDict) : Prop :=
  ∃ fields s colors, lookupField td "color_schemes" = some (.obj fields)
    ∧ (s, JValue.obj colors) ∈ fields
    ∧ ¬ (∀ k, k ∈ suppliedKeys colors ↔ k ∈ paletteSlots)

/-- The breakpoints mapping does not supply exactly the six fixed names. -/
def badBreakpointKeys (td : RawDict) : Prop :=
  ∃ fields, lookupField td "breakpoints" = some (.obj fields)
    ∧ ¬ (∀ k, k ∈ suppliedKeys fields ↔ k ∈ breakpointNames)

/-- Whether a parse result succeeded or failed inside the ValidationFailure
taxonomy (`_parse_theme` never produces the store-level errors). -/
def validOrOk {α : Type} : Except ThemeError α → Bool
  | .ok _ => true
  | .error e => e.isValidationFailure

/-- The empty store (a fresh `ThemeManager` over an empty directory). -/
def emptyStore : ThemeManager := ⟨[], []⟩

/-- A store holding exactly the theme parsed from `rawThemeA`. -/
def storeA : ThemeManager := ⟨[("A", rawThemeA)], [("A", themeA)]⟩

/-- `rawThemeA` with its optional `custom` key removed. -/
def rawThemeNoCustom : RawDict := delKey rawThemeA "custom"

/-- `rawThemeA` with a scheme key outside `{light, dark}`. -/
def rawThemeBadScheme : RawDict :=
  setKey rawThemeA "color_schemes" (.obj [("solarized", lightPaletteRaw)])

/-- A payload string exercising every JSON escape class (quote, backslash,
control character, non-ASCII). -/
def trickyString : String := "a\x22b\x5cc\nd\x09é✓"

/-- `rawThemeA` with escape-heavy string content, exercising the serializer. -/
def rawThemeTricky : RawDict := setKey rawThemeA "name" (.str trickyString)

/-- The theme parsed from `rawThemeTricky`. -/
def themeTricky : Theme :=
  match parse_theme rawThemeTricky with
  | .ok t => t
  | .error _ => default

/-- The theme parsed from `rawThemeNoCustom`. -/
def themeNoCustom : Theme :=
  match parse_theme rawThemeNoCustom with
  | .ok t => t
  | .error _ => default

/-! ## Helper lemmas on association-list operations -/

theorem getVal_setKey_self {α : Type} (l : List (String × α)) (k : String) (v : α) :
    getVal (setKey l k v) k = some v := by
  induction l with
  | nil => simp [setKey, getVal]
  | cons p rest ih =>
    by_cases h : p.1 == k
    · simp [setKey, h, getVal]
    · simp [setKey, h, getVal, ih]

theorem mem_setKey {α : Type} (l : List (String × α)) (k : String) (v : α) :
    ∀ q ∈ setKey l k v, q = (k, v) ∨ q ∈ l := by
  induction l with
  | nil => simp [setKey]
  | cons p rest ih =>
    intro q hq
    by_cases h : p.1 == k
    · simp [setKey, h] at hq
      rcases hq with h1 | h1
      · exact Or.inl (by simp [h1])
      · exact Or.inr (by simp [h1])
    · simp [setKey, h] at hq
      rcases hq with h1 | h1
      · exact Or.inr (by simp [h1])
      · rcases ih q h1 with h2 | h2
        · exact Or.inl h2
        · exact Or.inr (by simp [h2])

theorem mem_delKey {α : Type} (l : List (String × α)) (k : String) :
    ∀ q ∈ delKey l k, q ∈ l := by
  induction l with
  | nil => simp [delKey]
  | cons p rest ih =>
    intro q hq
    by_cases h : p.1 == k
    · simp [delKey, h] at hq
      simp [hq]
    · simp [delKey, h] at hq
      rcases hq with h1 | h1
      · simp [h1]
      · simp [ih q h1]

/-! ## C1 -/

/-- C1 evaluation at the failing input: the claim says `generate_component`
with the React target returns, for the Button tree, text containing a
`Button` definition, a `{ label }` destructure and a `color: red;` styled
wrapper — but the React adapter can never return anything: its template
contains the f-string fragment `{...props}` (framework_adapter.py line 56),
which Python rejects as a SyntaxError, so the module cannot even be imported.
Evaluating the modelled template (that fragment taken as literal text, the
only reading under which the template denotes a string) at the Button tree
exhibits the defective fragment verbatim in the output, and shows that even
this intended output never contains the claimed `{ label }` — the React
props renderer emits each prop with its type descriptor, `{ label: string }`
(the `{ label }` format belongs to the Next.js adapter). -/
theorem C1_react_template_defect :
    strContains reactButtonCode "\x7b...props\x7d" = true
    ∧ strContains reactButtonCode "\x7b label \x7d" = false
    ∧ strContains reactButtonCode "(\x7b label: string \x7d)" = true
    ∧ strContains reactButtonCode "export const Button" = true
    ∧ strContains reactButtonCode "color: red;" = true := by
  refine ⟨?_, ?_, ?_, ?_, ?_⟩ <;> decide

/-! ## C2 -/

/-- C2 evaluation at the failing input: for the React target (and likewise
Next.js), a node's rendering does not contain its child's rendering — the
f-string fragment `{{"".join(children)}}` is brace-escaped, so the literal
text `{"".join(children)}` is emitted and the computed child renderings are
dropped.  The Vue adapter, whose template uses single braces, embeds the
child rendering as the claim describes. -/
theorem C2_react_drops_children :
    UIGenerator.generate_component buttonWithChildDef (.fw .react)
      = .ok (ReactAdapter.generate_component buttonWithChildDef)
    ∧ strContains (ReactAdapter.generate_component buttonWithChildDef)
        (ReactAdapter.generate_component iconDef) = false
    ∧ strContains (ReactAdapter.generate_component buttonWithChildDef)
        "\x7b\x22\x22.join(children)\x7d" = true
    ∧ strContains (NextJSAdapter.generate_component buttonWithChildDef)
        (NextJSAdapter.generate_component iconDef) = false
    ∧ strContains (VueAdapter.generate_component buttonWithChildDef)
        (VueAdapter.generate_component iconDef) = true := by
  refine ⟨rfl, ?_, ?_, ?_, ?_⟩ <;> decide

/-! ## C8 -/

/-- C8: an unregistered target fails the dispatcher with UnsupportedTarget
and produces no output; exporting an existing theme with a format other than
`css`/`scss` fails with UnsupportedFormat (the export path never writes the
store); updating or deleting a name absent from the index fails with
NotFound and returns the store unchanged, index and records alike. -/
theorem C8_error_paths :
    (∀ (d : ComponentDefinition) (t : Target),
      findAdapter UIGenerator.adapters t = none →
      UIGenerator.generate_component d t = .error .unsupportedTarget)
    ∧ (∀ (m : ThemeManager) (name fmt : String) (theme : Theme),
      ThemeManager.get_theme m name = some theme → fmt ≠ "css" → fmt ≠ "scss" →
      ThemeManager.export_theme m name fmt = .error (.unsupportedFormat fmt))
    ∧ (∀ (m : ThemeManager) (name : String) (raw : RawDict),
      getVal m.themes name = none →
      ThemeManager.update_theme m name raw = (.error (.notFound name), m))
    ∧ (∀ (m : ThemeManager) (name : String),
      getVal m.themes name = none →
      ThemeManager.delete_theme m name = (.error (.notFound name), m)) := by
  refine ⟨?_, ?_, ?_, ?_⟩
  · intro d t h
    simp [UIGenerator.generate_component, h]
  · intro m name fmt theme h1 h2 h3
    simp [ThemeManager.export_theme, h1, h2, h3]
  · intro m name raw h
    simp [ThemeManager.update_theme, h]
  · intro m name h
    simp [ThemeManager.delete_theme, h]

/-- C8 witness: the four error paths at concrete inputs — an unknown target
string, an unsupported `xml` export format on a one-theme store, and an
update/delete against the missing name `"ghost"` on the empty store. -/
theorem C8_witness :
    UIGenerator.generate_component buttonDef (.other "angular")
      = .error .unsupportedTarget
    ∧ ThemeManager.export_theme storeA "A" "xml"
      = .error (.unsupportedFormat "xml")
    ∧ ThemeManager.update_theme emptyStore "ghost" rawThemeA
      = (.error (.notFound "ghost"), emptyStore)
    ∧ ThemeManager.delete_theme emptyStore "ghost"
      = (.error (.notFound "ghost"), emptyStore) :=
  ⟨C8_error_paths.1 buttonDef (.other "angular") rfl,
   C8_error_paths.2.1 storeA "A" "xml" themeA rfl (by decide) (by decide),
   C8_error_paths.2.2.1 emptyStore "ghost" rawThemeA rfl,
   C8_error_paths.2.2.2 emptyStore "ghost" rfl⟩

/-! ## C9 -/

/-- C9: `create_theme` performs no duplicate-name check — on a payload whose
parsed name is already indexed it succeeds, overwrites the persisted record
under that name and replaces the index entry with the newly parsed theme. -/
theorem C9_create_overwrites :
    ∀ (m : ThemeManager) (raw : RawDict) (t t0 : Theme),
      parse_theme raw = .ok t →
      getVal m.themes t.name = some t0 →
      ThemeManager.create_theme m raw
        = (.ok t, ⟨setKey m.files t.name raw, setKey m.themes t.name t⟩)
      ∧ getVal (setKey m.themes t.name t) t.name = some t
      ∧ getVal (setKey m.files t.name raw) t.name = some raw := by
  intro m raw t t0 hp _
  refine ⟨?_, getVal_setKey_self .., getVal_setKey_self ..⟩
  simp [ThemeManager.create_theme, hp]

/-- C9 witness: creating `rawThemeA` on a store that already holds the theme
named `"A"` succeeds and overwrites both entries. -/
theorem C9_witness :
    ThemeManager.create_theme storeA rawThemeA
      = (.ok themeA, ⟨setKey storeA.files themeA.name rawThemeA,
                      setKey storeA.themes themeA.name themeA⟩)
    ∧ getVal (setKey storeA.themes themeA.name themeA) themeA.name = some themeA
    ∧ getVal (setKey storeA.files themeA.name rawThemeA) themeA.name
        = some rawThemeA :=
  C9_create_overwrites storeA rawThemeA themeA themeA rfl rfl

/-! ## C10 -/

/-- C10: `export_theme` resolves the name before inspecting the format, so an
absent name fails with NotFound for every format, recognized or not. -/
theorem C10_notfound_before_format :
    ∀ (m : ThemeManager) (name fmt : String),
      getVal m.themes name = none →
      ThemeManager.export_theme m name fmt = .error (.notFound name) := by
  intro m name fmt h
  simp [ThemeManager.export_theme, ThemeManager.get_theme, h]

/-- C10 witness: exporting the missing name `"ghost"` with the unrecognized
format `"xml"` from the empty store yields NotFound, not UnsupportedFormat. -/
theorem C10_witness :
    ThemeManager.export_theme emptyStore "ghost" "xml"
      = .error (.notFound "ghost") :=
  C10_notfound_before_format emptyStore "ghost" "xml" rfl

/-! ## Helper lemmas on the parsing chain -/

theorem bind_ok {α β : Type} {a : Except ThemeError α} {f : α → Except ThemeError β}
    {b : β} (h : (a >>= f) = .ok b) : ∃ x, a = .ok x ∧ f x = .ok b := by
  cases a with
  | ok x => exact ⟨x, rfl, by simpa [Bind.bind, Except.bind] using h⟩
  | error e => simp [Bind.bind, Except.bind] at h

theorem validOrOk_bind {α β : Type} (a : Except ThemeError α)
    (f : α → Except ThemeError β) (ha : validOrOk a = true)
    (hf : ∀ x, validOrOk (f x) = true) : validOrOk (a >>= f) = true := by
  cases a with
  | ok x => simpa [Bind.bind, Except.bind] using hf x
  | error e => simpa [Bind.bind, Except.bind, validOrOk] using ha

theorem validOrOk_getField (d : RawDict) (k : String) :
    validOrOk (getField d k) = true := by
  unfold getField
  cases lookupField d k <;> simp [validOrOk, ThemeError.isValidationFailure]

theorem validOrOk_asObj (v : JValue) : validOrOk (asObj v) = true := by
  cases v <;> simp [asObj, validOrOk, ThemeError.isValidationFailure]

theorem validOrOk_asStr (v : JValue) : validOrOk (asStr v) = true := by
  cases v <;> simp [asStr, validOrOk, ThemeError.isValidationFailure]

theorem validOrOk_asArr (v : JValue) : validOrOk (asArr v) = true := by
  cases v <;> simp [asArr, validOrOk, ThemeError.isValidationFailure]

theorem validOrOk_getObj (d : RawDict) (k : String) :
    validOrOk (getObj d k) = true :=
  validOrOk_bind _ _ (validOrOk_getField d k) validOrOk_asObj

theorem validOrOk_getStr (d : RawDict) (k : String) :
    validOrOk (getStr d k) = true :=
  validOrOk_bind _ _ (validOrOk_getField d k) validOrOk_asStr

theorem validOrOk_getArr (d : RawDict) (k : String) :
    validOrOk (getArr d k) = true :=
  validOrOk_bind _ _ (validOrOk_getField d k) validOrOk_asArr

theorem validOrOk_pure {α : Type} (x : α) :
    validOrOk (pure x : Except ThemeError α) = true := rfl

theorem validOrOk_parsePalette (v : JValue) :
    validOrOk (parsePalette v) = true := by
  unfold parsePalette
  refine validOrOk_bind _ _ (validOrOk_asObj v) (fun colors => ?_)
  by_cases h : exactKeys colors paletteSlots
  · simp only [h, if_true]
    refine validOrOk_bind _ _ (validOrOk_getStr ..) (fun _ => ?_)
    refine validOrOk_bind _ _ (validOrOk_getStr ..) (fun _ => ?_)
    refine validOrOk_bind _ _ (validOrOk_getStr ..) (fun _ => ?_)
    refine validOrOk_bind _ _ (validOrOk_getStr ..) (fun _ => ?_)
    refine validOrOk_bind _ _ (validOrOk_getStr ..) (fun _ => ?_)
    refine validOrOk_bind _ _ (validOrOk_getStr ..) (fun _ => ?_)
    refine validOrOk_bind _ _ (validOrOk_getStr ..) (fun _ => ?_)
    refine validOrOk_bind _ _ (validOrOk_getStr ..) (fun _ => ?_)
    exact validOrOk_bind _ _ (validOrOk_getStr ..) (fun _ => validOrOk_pure _)
  · simp [h, validOrOk, ThemeError.isValidationFailure]

theorem validOrOk_parseScheme (s : String) :
    validOrOk (parseScheme s) = true := by
  unfold parseScheme
  by_cases h1 : s == "light"
  · simp [h1, validOrOk]
  · by_cases h2 : s == "dark" <;>
      simp [h1, h2, validOrOk, ThemeError.isValidationFailure]

theorem validOrOk_parseSchemes (fields : RawDict) :
    validOrOk (parseSchemes fields) = true := by
  induction fields with
  | nil => simp [parseSchemes, validOrOk]
  | cons p rest ih =>
    unfold parseSchemes
    refine validOrOk_bind _ _ (validOrOk_parseScheme ..) (fun _ => ?_)
    refine validOrOk_bind _ _ (validOrOk_parsePalette ..) (fun _ => ?_)
    exact validOrOk_bind _ _ ih (fun _ => validOrOk_pure _)

theorem validOrOk_parseStrMap (fields : RawDict) :
    validOrOk (parseStrMap fields) = true := by
  induction fields with
  | nil => simp [parseStrMap, validOrOk]
  | cons p rest ih =>
    unfold parseStrMap
    refine validOrOk_bind _ _ (validOrOk_asStr ..) (fun _ => ?_)
    exact validOrOk_bind _ _ ih (fun _ => validOrOk_pure _)

theorem validOrOk_parseHeadings (fields : RawDict) :
    validOrOk (parseHeadings fields) = true := by
  induction fields with
  | nil => simp [parseHeadings, validOrOk]
  | cons p rest ih =>
    unfold parseHeadings
    refine validOrOk_bind _ _ (validOrOk_asObj ..) (fun _ => ?_)
    refine validOrOk_bind _ _ (validOrOk_parseStrMap ..) (fun _ => ?_)
    exact validOrOk_bind _ _ ih (fun _ => validOrOk_pure _)

theorem validOrOk_parseStrList (elems : List JValue) :
    validOrOk (parseStrList elems) = true := by
  induction elems with
  | nil => simp [parseStrList, validOrOk]
  | cons v rest ih =>
    unfold parseStrList
    refine validOrOk_bind _ _ (validOrOk_asStr ..) (fun _ => ?_)
    exact validOrOk_bind _ _ ih (fun _ => validOrOk_pure _)

theorem validOrOk_parseTypography (fields : RawDict) :
    validOrOk (parseTypography fields) = true := by
  unfold parseTypography
  refine validOrOk_bind _ _ (validOrOk_getStr ..) (fun _ => ?_)
  refine validOrOk_bind _ _ (validOrOk_getStr ..) (fun _ => ?_)
  refine validOrOk_bind _ _ (validOrOk_getStr ..) (fun _ => ?_)
  refine validOrOk_bind _ _ (validOrOk_getObj ..) (fun _ => ?_)
  refine validOrOk_bind _ _ (validOrOk_parseHeadings ..) (fun _ => ?_)
  refine validOrOk_bind _ _ (validOrOk_getObj ..) (fun _ => ?_)
  exact validOrOk_bind _ _ (validOrOk_parseStrMap ..) (fun _ => validOrOk_pure _)

theorem validOrOk_parseSpacing (fields : RawDict) :
    validOrOk (parseSpacing fields) = true := by
  unfold parseSpacing
  refine validOrOk_bind _ _ (validOrOk_getStr ..) (fun _ => ?_)
  refine validOrOk_bind _ _ (validOrOk_getArr ..) (fun _ => ?_)
  refine validOrOk_bind _ _ (validOrOk_parseStrList ..) (fun _ => ?_)
  refine validOrOk_bind _ _ (validOrOk_getObj ..) (fun _ => ?_)
  exact validOrOk_bind _ _ (validOrOk_parseStrMap ..) (fun _ => validOrOk_pure _)

theorem validOrOk_parseBreakpoints (v : JValue) :
    validOrOk (parseBreakpoints v) = true := by
  unfold parseBreakpoints
  refine validOrOk_bind _ _ (validOrOk_asObj v) (fun fields => ?_)
  by_cases h : exactKeys fields breakpointNames
  · simp only [h, if_true]
    refine validOrOk_bind _ _ (validOrOk_getStr ..) (fun _ => ?_)
    refine validOrOk_bind _ _ (validOrOk_getStr ..) (fun _ => ?_)
    refine validOrOk_bind _ _ (validOrOk_getStr ..) (fun _ => ?_)
    refine validOrOk_bind _ _ (validOrOk_getStr ..) (fun _ => ?_)
    refine validOrOk_bind _ _ (validOrOk_getStr ..) (fun _ => ?_)
    exact validOrOk_bind _ _ (validOrOk_getStr ..) (fun _ => validOrOk_pure _)
  · simp [h, validOrOk, ThemeError.isValidationFailure]

theorem validOrOk_parse_theme (td : RawDict) :
    validOrOk (parse_theme td) = true := by
  unfold parse_theme
  refine validOrOk_bind _ _ (validOrOk_getObj ..) (fun _ => ?_)
  refine validOrOk_bind _ _ (validOrOk_parseSchemes ..) (fun _ => ?_)
  refine validOrOk_bind _ _ (validOrOk_getObj ..) (fun _ => ?_)
  refine validOrOk_bind _ _ (validOrOk_parseTypography ..) (fun _ => ?_)
  refine validOrOk_bind _ _ (validOrOk_getObj ..) (fun _ => ?_)
  refine validOrOk_bind _ _ (validOrOk_parseSpacing ..) (fun _ => ?_)
  refine validOrOk_bind _ _ (validOrOk_getField ..) (fun _ => ?_)
  refine validOrOk_bind _ _ (validOrOk_parseBreakpoints ..) (fun _ => ?_)
  exact validOrOk_bind _ _ (validOrOk_getStr ..) (fun _ => validOrOk_pure _)

theorem getField_ok {d : RawDict} {k : String} {v : JValue}
    (h : getField d k = .ok v) : lookupField d k = some v := by
  unfold getField at h
  cases hl : lookupField d k <;> simp [hl] at h <;> simp [h]

theorem asObj_ok {v : JValue} {f : RawDict} (h : asObj v = .ok f) :
    v = .obj f := by
  cases v <;> simp [asObj] at h <;> simp [h]

theorem asStr_ok {v : JValue} {s : String} (h : asStr v = .ok s) :
    v = .str s := by
  cases v <;> simp [asStr] at h <;> simp [h]

theorem asArr_ok {v : JValue} {es : List JValue} (h : asArr v = .ok es) :
    v = .arr es := by
  cases v <;> simp [asArr] at h <;> simp [h]

theorem getObj_ok {d : RawDict} {k : String} {f : RawDict}
    (h : getObj d k = .ok f) : lookupField d k = some (.obj f) := by
  obtain ⟨v, hv, ho⟩ := bind_ok h
  rw [getField_ok hv, asObj_ok ho]

theorem getStr_ok {d : RawDict} {k : String} {s : String}
    (h : getStr d k = .ok s) : lookupField d k = some (.str s) := by
  obtain ⟨v, hv, ho⟩ := bind_ok h
  rw [getField_ok hv, asStr_ok ho]

theorem getArr_ok {d : RawDict} {k : String} {es : List JValue}
    (h : getArr d k = .ok es) : lookupField d k = some (.arr es) := by
  obtain ⟨v, hv, ho⟩ := bind_ok h
  rw [getField_ok hv, asArr_ok ho]

theorem parseScheme_ok {s : String} {sc : ColorScheme}
    (h : parseScheme s = .ok sc) : s = "light" ∨ s = "dark" := by
  unfold parseScheme at h
  by_cases h1 : s == "light"
  · exact Or.inl (by simpa using h1)
  · by_cases h2 : s == "dark"
    · exact Or.inr (by simpa using h2)
    · simp [h1, h2] at h

theorem parsePalette_ok {v : JValue} {p : ColorPalette}
    (h : parsePalette v = .ok p) :
    ∃ colors, v = .obj colors ∧ exactKeys colors paletteSlots = true := by
  unfold parsePalette at h
  obtain ⟨colors, hc, hrest⟩ := bind_ok h
  refine ⟨colors, asObj_ok hc, ?_⟩
  by_cases he : exactKeys colors paletteSlots
  · exact he
  · simp [he] at hrest

theorem parseBreakpoints_ok {v : JValue} {b : Breakpoints}
    (h : parseBreakpoints v = .ok b) :
    ∃ fields, v = .obj fields ∧ exactKeys fields breakpointNames = true := by
  unfold parseBreakpoints at h
  obtain ⟨fields, hc, hrest⟩ := bind_ok h
  refine ⟨fields, asObj_ok hc, ?_⟩
  by_cases he : exactKeys fields breakpointNames
  · exact he
  · simp [he] at hrest

theorem parseSchemes_ok_entries {fields : RawDict}
    {cs : List (ColorScheme × ColorPalette)}
    (h : parseSchemes fields = .ok cs) :
    ∀ s v, (s, v) ∈ fields →
      (s = "light" ∨ s = "dark")
      ∧ (∀ colors, v = .obj colors → exactKeys colors paletteSlots = true) := by
  induction fields generalizing cs with
  | nil => intro s v hm; simp at hm
  | cons p rest ih =>
    intro s v hm
    unfold parseSchemes at h
    obtain ⟨sc, hsc, h1⟩ := bind_ok h
    obtain ⟨pal, hpal, h2⟩ := bind_ok h1
    obtain ⟨tl, htl, _⟩ := bind_ok h2
    rcases List.mem_cons.mp hm with hm | hm
    · subst hm
      constructor
      · exact parseScheme_ok hsc
      · intro colors hvc
        obtain ⟨colors2, hc2, he2⟩ := parsePalette_ok hpal
        simp only [] at hc2
        rw [hvc] at hc2
        cases hc2
        exact he2
    · exact ih htl s v hm

theorem parseTypography_ok_keys {f : RawDict} {ty : Typography}
    (h : parseTypography f = .ok ty) :
    hasKey f "font_family" = true ∧ hasKey f "font_size_base" = true
    ∧ hasKey f "line_height_base" = true ∧ hasKey f "headings" = true
    ∧ hasKey f "body" = true := by
  unfold parseTypography at h
  obtain ⟨ff, hff, h1⟩ := bind_ok h
  obtain ⟨fs, hfs, h2⟩ := bind_ok h1
  obtain ⟨lh, hlh, h3⟩ := bind_ok h2
  obtain ⟨hr, hhr, h4⟩ := bind_ok h3
  obtain ⟨hs, hhs, h5⟩ := bind_ok h4
  obtain ⟨br, hbr, _⟩ := bind_ok h5
  exact ⟨by simp [hasKey, getStr_ok hff], by simp [hasKey, getStr_ok hfs],
         by simp [hasKey, getStr_ok hlh], by simp [hasKey, getObj_ok hhr],
         by simp [hasKey, getObj_ok hbr]⟩

theorem parseSpacing_ok_keys {f : RawDict} {sp : Spacing}
    (h : parseSpacing f = .ok sp) :
    hasKey f "unit" = true ∧ hasKey f "scale" = true
    ∧ hasKey f "custom" = true := by
  unfold parseSpacing at h
  obtain ⟨u, hu, h1⟩ := bind_ok h
  obtain ⟨sr, hsr, h2⟩ := bind_ok h1
  obtain ⟨sc, hsc, h3⟩ := bind_ok h2
  obtain ⟨cr, hcr, _⟩ := bind_ok h3
  exact ⟨by simp [hasKey, getStr_ok hu], by simp [hasKey, getArr_ok hsr],
         by simp [hasKey, getObj_ok hcr]⟩

theorem parse_theme_ok_parts {td : RawDict} {t : Theme}
    (h : parse_theme td = .ok t) :
    (∃ schemesRaw, lookupField td "color_schemes" = some (.obj schemesRaw)
      ∧ parseSchemes schemesRaw = .ok t.color_schemes)
    ∧ (∃ tf, lookupField td "typography" = some (.obj tf)
      ∧ parseTypography tf = .ok t.typography)
    ∧ (∃ sf, lookupField td "spacing" = some (.obj sf)
      ∧ parseSpacing sf = .ok t.spacing)
    ∧ (∃ bv, lookupField td "breakpoints" = some bv
      ∧ parseBreakpoints bv = .ok t.breakpoints)
    ∧ lookupField td "name" = some (.str t.name)
    ∧ t.custom = (lookupField td "custom").getD (.obj []) := by
  unfold parse_theme at h
  obtain ⟨sr, hsr, h1⟩ := bind_ok h
  obtain ⟨cs, hcs, h2⟩ := bind_ok h1
  obtain ⟨tf, htf, h3⟩ := bind_ok h2
  obtain ⟨ty, hty, h4⟩ := bind_ok h3
  obtain ⟨sf, hsf, h5⟩ := bind_ok h4
  obtain ⟨sp, hsp, h6⟩ := bind_ok h5
  obtain ⟨bv, hbv, h7⟩ := bind_ok h6
  obtain ⟨bp, hbp, h8⟩ := bind_ok h7
  obtain ⟨nm, hnm, h9⟩ := bind_ok h8
  have ht : t = ⟨nm, cs, ty, sp, bp, (lookupField td "custom").getD (.obj [])⟩ := by
    have := h9
    simp [pure, Except.pure] at this
    exact this.symm
  subst ht
  exact ⟨⟨sr, getObj_ok hsr, hcs⟩, ⟨tf, getObj_ok htf, hty⟩,
         ⟨sf, getObj_ok hsf, hsp⟩, ⟨bv, getField_ok hbv, hbp⟩,
         getStr_ok hnm, rfl⟩

/-! ## Helper lemmas on `exactKeys` -/

theorem lookup_isSome_iff_mem (d : RawDict) (k : String) :
    (lookupField d k).isSome = true ↔ k ∈ suppliedKeys d := by
  induction d with
  | nil => simp [lookupField, suppliedKeys]
  | cons p rest ih =>
    by_cases h : p.1 == k
    · simp [lookupField, h, suppliedKeys]
      exact Or.inl (eq_of_beq h).symm
    · have hne : ¬ k = p.1 := fun he => by simp [he] at h
      simp [lookupField, h, suppliedKeys, hne]
      simpa [suppliedKeys] using ih

theorem exactKeys_mem_iff {d : RawDict} {req : List String}
    (hnd : req.Nodup) (h : exactKeys d req = true) :
    ∀ k, k ∈ suppliedKeys d ↔ k ∈ req := by
  unfold exactKeys at h
  rw [Bool.and_eq_true] at h
  obtain ⟨hlen, hall⟩ := h
  have hlen' : d.length = req.length := by simpa using hlen
  have hsub : ∀ k ∈ req, k ∈ suppliedKeys d := by
    intro k hk
    have := List.all_eq_true.mp hall k hk
    exact (lookup_isSome_iff_mem d k).mp (by simpa using this)
  intro k
  constructor
  · intro hk
    by_contra hnot
    have hsub2 : (k :: req) ⊆ suppliedKeys d := by
      intro x hx
      rcases List.mem_cons.mp hx with hx | hx
      · subst hx; exact hk
      · exact hsub x hx
    have hnd2 : (k :: req).Nodup := List.nodup_cons.mpr ⟨hnot, hnd⟩
    have hcard : (k :: req).toFinset.card ≤ (suppliedKeys d).toFinset.card := by
      apply Finset.card_le_card
      intro x hx
      rw [List.mem_toFinset] at hx ⊢
      exact hsub2 hx
    have h1 : (k :: req).toFinset.card = req.length + 1 := by
      rw [List.toFinset_card_of_nodup hnd2]
      simp
    have h2 : (suppliedKeys d).toFinset.card ≤ req.length := by
      calc (suppliedKeys d).toFinset.card ≤ (suppliedKeys d).length :=
             List.toFinset_card_le _
        _ = d.length := by simp [suppliedKeys]
        _ = req.length := hlen'
    omega
  · exact hsub k

theorem parse_ok_required {td : RawDict} {t : Theme}
    (h : parse_theme td = .ok t) : requiredKeysPresent td = true := by
  obtain ⟨⟨sr, hsr, _⟩, ⟨tf, htf, hty⟩, ⟨sf, hsf, hsp⟩, ⟨bv, hbv, _⟩, hnm, _⟩ :=
    parse_theme_ok_parts h
  obtain ⟨k1, k2, k3, k4, k5⟩ := parseTypography_ok_keys hty
  obtain ⟨m1, m2, m3⟩ := parseSpacing_ok_keys hsp
  unfold requiredKeysPresent
  rw [htf, hsf]
  simp [hasKey] at k1 k2 k3 k4 k5 m1 m2 m3
  simp [hasKey, hnm, hsr, hbv, k1, k2, k3, k4, k5, m1, m2, m3]

/-! ## C3 -/

/-- C3 counterexample: a payload identical to a valid one but with the
top-level `custom` key absent does not fail — `_parse_theme` reads `custom`
with `dict.get("custom", {})` and default-fills it with the empty mapping,
contradicting the claim that an absent `custom` key yields a
ValidationFailure and that no field is ever default-filled. -/
theorem C3_counterexample :
    lookupField rawThemeNoCustom "custom" = none
    ∧ (parse_theme rawThemeNoCustom).isOk = true
    ∧ Except.map Theme.custom (parse_theme rawThemeNoCustom) = .ok (.obj []) :=
  ⟨rfl, rfl, rfl⟩

/-- C3 (amended): parse fails with a ValidationFailure whenever any required
key or nested key other than top-level `custom` (`name`, `color_schemes`,
`typography` and its five sub-keys, `spacing` and its three sub-keys,
`breakpoints`) is absent, and a successful parse draws every field from the
payload except that the optional `custom` key — the one deviation from the
claim — is default-filled with the empty mapping when absent. -/
theorem C3_required_keys :
    (∀ td : RawDict, requiredKeysPresent td = false →
      failsValidation (parse_theme td) = true)
    ∧ (∀ (td : RawDict) (t : Theme), parse_theme td = .ok t →
      requiredKeysPresent td = true
      ∧ (lookupField td "custom" = none → t.custom = .obj [])) := by
  constructor
  · intro td hreq
    have hv := validOrOk_parse_theme td
    cases h : parse_theme td with
    | ok t => rw [parse_ok_required h] at hreq; cases hreq
    | error e =>
      rw [h] at hv
      simpa [failsValidation, validOrOk] using hv
  · intro td t h
    refine ⟨parse_ok_required h, fun hnone => ?_⟩
    have := (parse_theme_ok_parts h).2.2.2.2.2
    rw [hnone] at this
    simpa using this

/-- C3 witness: deleting the required `name` key from a valid payload makes
the parse fail with a ValidationFailure, while deleting only the optional
`custom` key leaves the parse succeeding with `custom` defaulted to the
empty mapping. -/
theorem C3_witness :
    failsValidation (parse_theme (delKey rawThemeA "name")) = true
    ∧ (requiredKeysPresent rawThemeNoCustom = true
      ∧ (lookupField rawThemeNoCustom "custom" = none →
        themeNoCustom.custom = .obj [])) :=
  ⟨C3_required_keys.1 (delKey rawThemeA "name") (by decide),
   C3_required_keys.2 rawThemeNoCustom themeNoCustom rfl⟩

/-! ## C7 -/

/-- C7: parse fails with a ValidationFailure whenever some color palette does
not supply exactly the nine fixed slots, whenever some scheme key is neither
`"light"` nor `"dark"`, and whenever the breakpoints mapping does not supply
exactly the six fixed names. -/
theorem C7_shape_failures :
    ∀ td : RawDict, badSchemeKey td ∨ badPaletteKeys td ∨ badBreakpointKeys td →
      failsValidation (parse_theme td) = true := by
  intro td hbad
  have hv := validOrOk_parse_theme td
  cases h : parse_theme td with
  | error e =>
    rw [h] at hv
    simpa [failsValidation, validOrOk] using hv
  | ok t =>
    exfalso
    obtain ⟨⟨sr, hsr, hschemes⟩, _, _, ⟨bv, hbv, hbp⟩, _, _⟩ :=
      parse_theme_ok_parts h
    rcases hbad with ⟨fields, s, v, hl, hm, hs1, hs2⟩ | hbad
    · rw [hsr] at hl
      cases hl
      rcases (parseSchemes_ok_entries hschemes s v hm).1 with h1 | h1
      · exact hs1 h1
      · exact hs2 h1
    rcases hbad with ⟨fields, s, colors, hl, hm, hniff⟩ | ⟨fields, hl, hniff⟩
    · rw [hsr] at hl
      cases hl
      have he := (parseSchemes_ok_entries hschemes s (.obj colors) hm).2 colors rfl
      exact hniff (exactKeys_mem_iff (by decide) he)
    · rw [hbv] at hl
      cases hl
      obtain ⟨fields2, hf2, he2⟩ := parseBreakpoints_ok hbp
      cases hf2
      exact hniff (exactKeys_mem_iff (by decide) he2)

/-- C7 witness: a payload whose `color_schemes` uses the scheme key
`"solarized"` fails the parse with a ValidationFailure. -/
theorem C7_witness :
    failsValidation (parse_theme rawThemeBadScheme) = true :=
  C7_shape_failures rawThemeBadScheme
    (Or.inl ⟨[("solarized", lightPaletteRaw)], "solarized", lightPaletteRaw,
      rfl, List.Mem.head _, by decide, by decide⟩)

/-! ## C4 -/

theorem parse_name {raw : RawDict} {t : Theme}
    (h : parse_theme raw = .ok t) : rawName raw = some t.name := by
  have := (parse_theme_ok_parts h).2.2.2.2.1
  simp [rawName, this]

theorem storeConsistent_iff (m : ThemeManager) :
    storeConsistent m = true ↔
      (∀ p ∈ m.themes, p.2.name = p.1) ∧ (∀ q ∈ m.files, rawName q.2 = some q.1) := by
  simp [storeConsistent, List.all_eq_true]

theorem consistent_applyOp {m : ThemeManager} {op : StoreOp}
    (hc : storeConsistent m = true) (hg : goodOp op = true) :
    storeConsistent (applyOp m op) = true := by
  obtain ⟨hth, hfi⟩ := (storeConsistent_iff m).mp hc
  cases op with
  | create raw =>
    cases hp : parse_theme raw with
    | error e =>
      simpa [applyOp, ThemeManager.create_theme, hp] using hc
    | ok t =>
      have hgoal : applyOp m (.create raw)
          = ⟨setKey m.files t.name raw, setKey m.themes t.name t⟩ := by
        simp [applyOp, ThemeManager.create_theme, hp]
      rw [hgoal, storeConsistent_iff]
      constructor
      · intro p hmem
        rcases mem_setKey _ _ _ p hmem with h1 | h1
        · rw [h1]
        · exact hth p h1
      · intro q hmem
        rcases mem_setKey _ _ _ q hmem with h1 | h1
        · rw [h1]; exact parse_name hp
        · exact hfi q h1
  | update name raw =>
    cases hl : getVal m.themes name with
    | none =>
      simpa [applyOp, ThemeManager.update_theme, hl] using hc
    | some t0 =>
      cases hp : parse_theme raw with
      | error e =>
        simpa [applyOp, ThemeManager.update_theme, hl, hp] using hc
      | ok t =>
        have hgn : rawName raw = some name := by
          simpa [goodOp] using hg
        have htn : t.name = name := by
          have := parse_name hp
          rw [hgn] at this
          exact (Option.some.inj this).symm
        have hgoal : applyOp m (.update name raw)
            = ⟨setKey m.files name raw, setKey m.themes name t⟩ := by
          simp [applyOp, ThemeManager.update_theme, hl, hp]
        rw [hgoal, storeConsistent_iff]
        constructor
        · intro p hmem
          rcases mem_setKey _ _ _ p hmem with h1 | h1
          · rw [h1]; exact htn
          · exact hth p h1
        · intro q hmem
          rcases mem_setKey _ _ _ q hmem with h1 | h1
          · rw [h1]; exact hgn
          · exact hfi q h1
  | delete name =>
    cases hl : getVal m.themes name with
    | none =>
      simpa [applyOp, ThemeManager.delete_theme, hl] using hc
    | some t0 =>
      have hgoal : applyOp m (.delete name)
          = ⟨delKey m.files name, delKey m.themes name⟩ := by
        simp [applyOp, ThemeManager.delete_theme, hl]
      rw [hgoal, storeConsistent_iff]
      exact ⟨fun p hmem => hth p (mem_delKey _ _ p hmem),
             fun q hmem => hfi q (mem_delKey _ _ q hmem)⟩

/-- C4 counterexample: the invariant does not survive every sequence —
starting from the empty store, `create` of the payload named `"A"` followed
by `update("A", payload named "B")` leaves the index entry keyed `"A"`
holding a theme whose `name` is `"B"` (and the record keyed `"A"` holding a
payload whose internal name is `"B"`), because `update_theme` keys both
writes by its `name` argument without checking the payload's own name. -/
theorem C4_counterexample :
    storeConsistent (runOps emptyStore
      [.create rawThemeA, .update "A" rawThemeB]) = false
    ∧ (runOps emptyStore [.create rawThemeA, .update "A" rawThemeB]).themes.map
        (fun p => (p.1, p.2.name)) = [("A", "B")] := by
  constructor
  · decide
  · decide

/-- C4 (amended): the invariant — every index entry keyed by its theme's
`name`, every persisted record keyed by the name inside its payload — is
preserved by every sequence of create/update/delete operations in which each
update's payload carries the name it targets; the unrestricted claim fails
because `update_theme` never compares the two. -/
theorem C4_consistency_preserved :
    ∀ (ops : List StoreOp) (m : ThemeManager),
      storeConsistent m = true → ops.all goodOp = true →
      storeConsistent (runOps m ops) = true := by
  intro ops
  induction ops with
  | nil => intro m hc _; exact hc
  | cons op rest ih =>
    intro m hc hall
    rw [List.all_cons, Bool.and_eq_true] at hall
    exact ih (applyOp m op) (consistent_applyOp hc hall.1) hall.2

/-- C4 witness: a create/update/delete sequence whose update carries the name
it targets preserves the invariant from the empty store. -/
theorem C4_witness :
    storeConsistent emptyStore = true
    ∧ ([StoreOp.create rawThemeA, .update "A" rawThemeA, .delete "A"].all
        goodOp) = true
    ∧ storeConsistent (runOps emptyStore
        [.create rawThemeA, .update "A" rawThemeA, .delete "A"]) = true :=
  ⟨rfl, by decide,
   C4_consistency_preserved [.create rawThemeA, .update "A" rawThemeA, .delete "A"]
     emptyStore rfl (by decide)⟩

/-! ## Helper lemmas for classifying export lines -/

theorem strData_append (a b : String) : (a ++ b).data = a.data ++ b.data := rfl

theorem listStarts_append_left {p l : List Char} (m : List Char)
    (h : listStarts p l = true) : listStarts p (l ++ m) = true := by
  induction p generalizing l with
  | nil => simp [listStarts]
  | cons a as ih =>
    cases l with
    | nil => simp [listStarts] at h
    | cons b bs =>
      simp [listStarts] at h ⊢
      exact ⟨h.1, ih h.2⟩

theorem listHasSub_of_starts {pat l : List Char}
    (h : listStarts pat l = true) : listHasSub pat l = true := by
  cases l <;> simp [listHasSub, h]

theorem listHasSub_append_right {pat : List Char} (l : List Char)
    {m : List Char} (h : listHasSub pat m = true) :
    listHasSub pat (l ++ m) = true := by
  induction l with
  | nil => simpa using h
  | cons c rest ih => simp [listHasSub, ih]

theorem sum_map_const {α : Type} (l : List α) (c : Nat) :
    (l.map (fun _ => c)).sum = l.length * c := by
  induction l with
  | nil => simp
  | cons a rest ih => simp [ih, Nat.succ_mul, Nat.add_comm]

theorem countP_flatMap {α β : Type} (p : β → Bool) (f : α → List β)
    (l : List α) :
    (l.flatMap f).countP p = (l.map (fun a => (f a).countP p)).sum := by
  induction l with
  | nil => simp
  | cons a rest ih => simp [List.flatMap_cons, ih]

theorem isCss_1 (lit a : String) (h : listStarts "  --".data lit.data = true) :
    isCssVarLine (lit ++ a ++ ";") = true := by
  unfold isCssVarLine strStartsWith
  simp only [strData_append, List.append_assoc]
  exact listStarts_append_left _ h

theorem isCss_kv (lit a b : String) (h : listStarts "  --".data lit.data = true) :
    isCssVarLine (lit ++ a ++ ": " ++ b ++ ";") = true := by
  unfold isCssVarLine strStartsWith
  simp only [strData_append, List.append_assoc]
  exact listStarts_append_left _ h

theorem isCss_3 (lit a b c : String) (h : listStarts "  --".data lit.data = true) :
    isCssVarLine (lit ++ a ++ "-" ++ b ++ ": " ++ c ++ ";") = true := by
  unfold isCssVarLine strStartsWith
  simp only [strData_append, List.append_assoc]
  exact listStarts_append_left _ h

theorem isScss_1 (lit a : String) (h : listStarts "$".data lit.data = true) :
    isScssVarLine (lit ++ a ++ ";") = true := by
  unfold isScssVarLine strStartsWith strEndsWith
  have h1 : listStarts "$".data ((lit ++ a ++ ";").data) = true := by
    simp only [strData_append, List.append_assoc]
    exact listStarts_append_left _ h
  have h2 : listStarts ";".data.reverse ((lit ++ a ++ ";").data.reverse) = true := by
    simp only [strData_append, List.reverse_append, List.append_assoc]
    exact listStarts_append_left _ (by decide)
  rw [h1, h2]
  simp

theorem isScss_3 (lit a b c : String) (h : listStarts "$".data lit.data = true) :
    isScssVarLine (lit ++ a ++ "-" ++ b ++ ": " ++ c ++ ";") = true := by
  unfold isScssVarLine strStartsWith strEndsWith
  have h1 : listStarts "$".data ((lit ++ a ++ "-" ++ b ++ ": " ++ c ++ ";").data) = true := by
    simp only [strData_append, List.append_assoc]
    exact listStarts_append_left _ h
  have h2 : listStarts ";".data.reverse
      ((lit ++ a ++ "-" ++ b ++ ": " ++ c ++ ";").data.reverse) = true := by
    simp only [strData_append, List.reverse_append, List.append_assoc]
    exact listStarts_append_left _ (by decide)
  rw [h1, h2]
  simp

theorem isScss_map (pre a b : String) :
    isScssVarLine (pre ++ a ++ ": " ++ b ++ ",") = true := by
  unfold isScssVarLine strStartsWith strEndsWith strContains
  have h1 : listStarts ",".data.reverse
      ((pre ++ a ++ ": " ++ b ++ ",").data.reverse) = true := by
    simp only [strData_append, List.reverse_append, List.append_assoc]
    exact listStarts_append_left _ (by decide)
  have h2 : listHasSub ": ".data ((pre ++ a ++ ": " ++ b ++ ",").data) = true := by
    simp only [strData_append, List.append_assoc]
    apply listHasSub_append_right
    apply listHasSub_append_right
    exact listHasSub_of_starts (listStarts_append_left _ (by decide))
  rw [h1, h2]
  simp

theorem isScss_heading_opener (h : String) :
    isScssVarLine ("  " ++ h ++ ": (") = false := by
  unfold isScssVarLine strStartsWith strEndsWith
  have h1 : listStarts "$".data (("  " ++ h ++ ": (").data) = false := by
    simp only [strData_append, List.append_assoc]
    simp [listStarts]
  have h2 : listStarts ",".data.reverse (("  " ++ h ++ ": (").data.reverse) = false := by
    simp only [strData_append, List.append_assoc, List.reverse_append]
    simp [listStarts]
  rw [h1, h2]
  simp

theorem cssVarCount_eq (t : Theme) :
    cssVarCount t = t.color_schemes.length * 9 + (3 + headingPropCount t)
      + (1 + t.spacing.scale.length) + 6 := by
  unfold cssVarCount ThemeManager.export_css_lines
  simp only [List.countP_append]
  have h0 : List.countP isCssVarLine [":root \x7b"] = 0 := by decide
  have h7 : List.countP isCssVarLine ["\x7d"] = 0 := by decide
  have h1 : (t.color_schemes.flatMap (fun sp =>
      sp.2.items.map (fun cv =>
        "  --color-" ++ sp.1.value ++ "-" ++ cv.1 ++ ": " ++ cv.2 ++ ";"))).countP
        isCssVarLine = t.color_schemes.length * 9 := by
    rw [countP_flatMap]
    have hinner : ∀ sp ∈ t.color_schemes,
        (sp.2.items.map (fun cv =>
          "  --color-" ++ sp.1.value ++ "-" ++ cv.1 ++ ": " ++ cv.2 ++ ";")).countP
          isCssVarLine = 9 := by
      intro sp _
      have hall : ∀ a ∈ sp.2.items.map (fun cv =>
          "  --color-" ++ sp.1.value ++ "-" ++ cv.1 ++ ": " ++ cv.2 ++ ";"),
          isCssVarLine a := by
        intro a ha
        obtain ⟨cv, _, rfl⟩ := List.mem_map.mp ha
        exact isCss_3 "  --color-" sp.1.value cv.1 cv.2 (by decide)
      rw [List.countP_eq_length.mpr hall, List.length_map]
      simp [ColorPalette.items]
    rw [List.map_congr_left hinner, sum_map_const]
  have h2 : List.countP isCssVarLine
      ["  --font-family: " ++ t.typography.font_family ++ ";",
       "  --font-size-base: " ++ t.typography.font_size_base ++ ";",
       "  --line-height-base: " ++ t.typography.line_height_base ++ ";"] = 3 := by
    have hall : ∀ a ∈ ["  --font-family: " ++ t.typography.font_family ++ ";",
        "  --font-size-base: " ++ t.typography.font_size_base ++ ";",
        "  --line-height-base: " ++ t.typography.line_height_base ++ ";"],
        isCssVarLine a := by
      intro a ha
      simp only [List.mem_cons, List.not_mem_nil, or_false] at ha
      rcases ha with rfl | rfl | rfl
      · exact isCss_1 "  --font-family: " t.typography.font_family (by decide)
      · exact isCss_1 "  --font-size-base: " t.typography.font_size_base (by decide)
      · exact isCss_1 "  --line-height-base: " t.typography.line_height_base (by decide)
    rw [List.countP_eq_length.mpr hall]
    rfl
  have h3 : (t.typography.headings.flatMap (fun hp =>
      hp.2.map (fun pv =>
        "  --typography-" ++ hp.1 ++ "-" ++ pv.1 ++ ": " ++ pv.2 ++ ";"))).countP
        isCssVarLine = headingPropCount t := by
    rw [countP_flatMap]
    have hinner : ∀ hp ∈ t.typography.headings,
        (hp.2.map (fun pv =>
          "  --typography-" ++ hp.1 ++ "-" ++ pv.1 ++ ": " ++ pv.2 ++ ";")).countP
          isCssVarLine = hp.2.length := by
      intro hp _
      have hall : ∀ a ∈ hp.2.map (fun pv =>
          "  --typography-" ++ hp.1 ++ "-" ++ pv.1 ++ ": " ++ pv.2 ++ ";"),
          isCssVarLine a := by
        intro a ha
        obtain ⟨pv, _, rfl⟩ := List.mem_map.mp ha
        exact isCss_3 "  --typography-" hp.1 pv.1 pv.2 (by decide)
      rw [List.countP_eq_length.mpr hall, List.length_map]
    rw [List.map_congr_left hinner]
    rfl
  have h4 : List.countP isCssVarLine
      ["  --spacing-unit: " ++ t.spacing.unit ++ ";"] = 1 := by
    have : isCssVarLine ("  --spacing-unit: " ++ t.spacing.unit ++ ";") = true :=
      isCss_1 "  --spacing-unit: " t.spacing.unit (by decide)
    simp [List.countP_cons, this]
  have h5 : (t.spacing.scale.enum.map (fun iv =>
      "  --spacing-" ++ toString iv.1 ++ ": " ++ iv.2 ++ ";")).countP
        isCssVarLine = t.spacing.scale.length := by
    have hall : ∀ a ∈ t.spacing.scale.enum.map (fun iv =>
        "  --spacing-" ++ toString iv.1 ++ ": " ++ iv.2 ++ ";"),
        isCssVarLine a := by
      intro a ha
      obtain ⟨iv, _, rfl⟩ := List.mem_map.mp ha
      exact isCss_kv "  --spacing-" (toString iv.1) iv.2 (by decide)
    rw [List.countP_eq_length.mpr hall, List.length_map, List.enum_length]
  have h6 : (t.breakpoints.items.map (fun bv =>
      "  --breakpoint-" ++ bv.1 ++ ": " ++ bv.2 ++ ";")).countP
        isCssVarLine = 6 := by
    have hall : ∀ a ∈ t.breakpoints.items.map (fun bv =>
        "  --breakpoint-" ++ bv.1 ++ ": " ++ bv.2 ++ ";"),
        isCssVarLine a := by
      intro a ha
      obtain ⟨bv, _, rfl⟩ := List.mem_map.mp ha
      exact isCss_kv "  --breakpoint-" bv.1 bv.2 (by decide)
    rw [List.countP_eq_length.mpr hall, List.length_map]
    simp [Breakpoints.items]
  rw [h0, h7, h1, h2, h3, h4, h5, h6]
  omega

theorem scssVarCount_eq (t : Theme) :
    scssVarCount t = t.color_schemes.length * 9 + (3 + headingPropCount t)
      + (1 + t.spacing.scale.length) + 6 := by
  unfold scssVarCount ThemeManager.export_scss_lines
  simp only [List.countP_append]
  have e1 : List.countP isScssVarLine ["$typography: ("] = 0 := by decide
  have e2 : List.countP isScssVarLine [");"] = 0 := by decide
  have e3 : List.countP isScssVarLine ["$spacing: ("] = 0 := by decide
  have e4 : List.countP isScssVarLine ["$breakpoints: ("] = 0 := by decide
  have h1 : (t.color_schemes.flatMap (fun sp =>
      sp.2.items.map (fun cv =>
        "$color-" ++ sp.1.value ++ "-" ++ cv.1 ++ ": " ++ cv.2 ++ ";"))).countP
        isScssVarLine = t.color_schemes.length * 9 := by
    rw [countP_flatMap]
    have hinner : ∀ sp ∈ t.color_schemes,
        (sp.2.items.map (fun cv =>
          "$color-" ++ sp.1.value ++ "-" ++ cv.1 ++ ": " ++ cv.2 ++ ";")).countP
          isScssVarLine = 9 := by
      intro sp _
      have hall : ∀ a ∈ sp.2.items.map (fun cv =>
          "$color-" ++ sp.1.value ++ "-" ++ cv.1 ++ ": " ++ cv.2 ++ ";"),
          isScssVarLine a := by
        intro a ha
        obtain ⟨cv, _, rfl⟩ := List.mem_map.mp ha
        exact isScss_3 "$color-" sp.1.value cv.1 cv.2 (by decide)
      rw [List.countP_eq_length.mpr hall, List.length_map]
      simp [ColorPalette.items]
    rw [List.map_congr_left hinner, sum_map_const]
  have h2 : List.countP isScssVarLine
      ["$font-family: " ++ t.typography.font_family ++ ";",
       "$font-size-base: " ++ t.typography.font_size_base ++ ";",
       "$line-height-base: " ++ t.typography.line_height_base ++ ";"] = 3 := by
    have hall : ∀ a ∈ ["$font-family: " ++ t.typography.font_family ++ ";",
        "$font-size-base: " ++ t.typography.font_size_base ++ ";",
        "$line-height-base: " ++ t.typography.line_height_base ++ ";"],
        isScssVarLine a := by
      intro a ha
      simp only [List.mem_cons, List.not_mem_nil, or_false] at ha
      rcases ha with rfl | rfl | rfl
      · exact isScss_1 "$font-family: " t.typography.font_family (by decide)
      · exact isScss_1 "$font-size-base: " t.typography.font_size_base (by decide)
      · exact isScss_1 "$line-height-base: " t.typography.line_height_base (by decide)
    rw [List.countP_eq_length.mpr hall]
    rfl
  have h3 : (t.typography.headings.flatMap (fun hp =>
      ("  " ++ hp.1 ++ ": (")
      :: (hp.2.map (fun pv => "    " ++ pv.1 ++ ": " ++ pv.2 ++ ",")
          ++ ["  ),"]))).countP isScssVarLine = headingPropCount t := by
    rw [countP_flatMap]
    have hinner : ∀ hp ∈ t.typography.headings,
        ((("  " ++ hp.1 ++ ": (")
          :: (hp.2.map (fun pv => "    " ++ pv.1 ++ ": " ++ pv.2 ++ ",")
              ++ ["  ),"])).countP isScssVarLine) = hp.2.length := by
      intro hp _
      rw [List.countP_cons_of_neg _ _ (by rw [isScss_heading_opener hp.1]; simp),
          List.countP_append]
      have hall : ∀ a ∈ hp.2.map (fun pv => "    " ++ pv.1 ++ ": " ++ pv.2 ++ ","),
          isScssVarLine a := by
        intro a ha
        obtain ⟨pv, _, rfl⟩ := List.mem_map.mp ha
        exact isScss_map "    " pv.1 pv.2
      rw [List.countP_eq_length.mpr hall, List.length_map]
      have : List.countP isScssVarLine ["  ),"] = 0 := by decide
      rw [this]
      omega
    rw [List.map_congr_left hinner]
    rfl
  have h4 : List.countP isScssVarLine
      ["$spacing-unit: " ++ t.spacing.unit ++ ";"] = 1 := by
    have : isScssVarLine ("$spacing-unit: " ++ t.spacing.unit ++ ";") = true :=
      isScss_1 "$spacing-unit: " t.spacing.unit (by decide)
    simp [List.countP_cons, this]
  have h5 : (t.spacing.scale.enum.map (fun iv =>
      "  " ++ toString iv.1 ++ ": " ++ iv.2 ++ ",")).countP
        isScssVarLine = t.spacing.scale.length := by
    have hall : ∀ a ∈ t.spacing.scale.enum.map (fun iv =>
        "  " ++ toString iv.1 ++ ": " ++ iv.2 ++ ","),
        isScssVarLine a := by
      intro a ha
      obtain ⟨iv, _, rfl⟩ := List.mem_map.mp ha
      exact isScss_map "  " (toString iv.1) iv.2
    rw [List.countP_eq_length.mpr hall, List.length_map, List.enum_length]
  have h6 : (t.breakpoints.items.map (fun bv =>
      "  " ++ bv.1 ++ ": " ++ bv.2 ++ ",")).countP isScssVarLine = 6 := by
    have hall : ∀ a ∈ t.breakpoints.items.map (fun bv =>
        "  " ++ bv.1 ++ ": " ++ bv.2 ++ ","),
        isScssVarLine a := by
      intro a ha
      obtain ⟨bv, _, rfl⟩ := List.mem_map.mp ha
      exact isScss_map "  " bv.1 bv.2
    rw [List.countP_eq_length.mpr hall, List.length_map]
    simp [Breakpoints.items]
  rw [e1, e2, e3, e4, h1, h2, h3, h4, h5, h6]
  omega

/-! ## C6 -/

/-- C6: for every theme in the store, the CSS and SCSS exports emit the same
number of variable entries — nine palette slots per scheme, plus the
typography entries (the three base declarations and one entry per
heading/style pair), plus the spacing entries (the unit and one entry per
scale position), plus the six breakpoints — differing only in syntax. -/
theorem C6_export_counts :
    ∀ (m : ThemeManager) (name : String) (t : Theme),
      getVal m.themes name = some t →
      ThemeManager.export_theme m name "css" = .ok (ThemeManager.export_css t)
      ∧ ThemeManager.export_theme m name "scss" = .ok (ThemeManager.export_scss t)
      ∧ scssVarCount t = cssVarCount t
      ∧ cssVarCount t = t.color_schemes.length * 9 + (3 + headingPropCount t)
          + (1 + t.spacing.scale.length) + 6 := by
  intro m name t h
  refine ⟨?_, ?_, ?_, cssVarCount_eq t⟩
  · simp [ThemeManager.export_theme, ThemeManager.get_theme, h]
  · simp [ThemeManager.export_theme, ThemeManager.get_theme, h]
  · rw [scssVarCount_eq, cssVarCount_eq]

/-- C6 witness: the store holding the theme parsed from `rawThemeA`
(one scheme, one heading with two style keys, a three-entry scale). -/
theorem C6_witness :
    ThemeManager.export_theme storeA "A" "css"
      = .ok (ThemeManager.export_css themeA)
    ∧ ThemeManager.export_theme storeA "A" "scss"
      = .ok (ThemeManager.export_scss themeA)
    ∧ scssVarCount themeA = cssVarCount themeA
    ∧ cssVarCount themeA = themeA.color_schemes.length * 9
        + (3 + headingPropCount themeA)
        + (1 + themeA.spacing.scale.length) + 6 :=
  C6_export_counts storeA "A" themeA rfl

/-! ## Round-trip of the JSON string encoding -/

theorem hexVal_hexDigitChar (n : Nat) (h : n < 16) :
    hexVal (hexDigitChar n) = n := by
  interval_cases n <;> decide

theorem hex_roundtrip (v : Nat) (hv : v < 32) :
    (((hexVal '0' * 16 + hexVal '0') * 16 + hexVal (hexDigitChar (v / 16))) * 16
      + hexVal (hexDigitChar (v % 16))) = v := by
  have h1 : hexVal '0' = 0 := by decide
  have h2 : hexVal (hexDigitChar (v / 16)) = v / 16 :=
    hexVal_hexDigitChar _ (by omega)
  have h3 : hexVal (hexDigitChar (v % 16)) = v % 16 :=
    hexVal_hexDigitChar _ (Nat.mod_lt _ (by omega))
  rw [h1, h2, h3]
  omega

theorem parseBody_enc (l : List Char) (rest : List Char) :
    parseStringBody (l.flatMap escChar ++ ('\x22' :: rest)) = some (⟨l⟩, rest) := by
  induction l with
  | nil => simp [parseStringBody]
  | cons c cs ih =>
    rw [List.flatMap_cons, List.append_assoc]
    by_cases h1 : c = '\x22'
    · subst h1
      rw [show escChar '\x22' = ['\x5c', '\x22'] from rfl]
      simp only [List.cons_append, List.nil_append]
      simp [parseStringBody, unescape, ih, strCons]
    · by_cases h2 : c = '\x5c'
      · subst h2
        rw [show escChar '\x5c' = ['\x5c', '\x5c'] from rfl]
        simp only [List.cons_append, List.nil_append]
        simp [parseStringBody, unescape, ih, strCons]
      · by_cases h3 : c.toNat < 32
        · rw [show escChar c = ['\x5c', 'u', '0', '0', hexDigitChar (c.toNat / 16),
              hexDigitChar (c.toNat % 16)] from by simp [escChar, h1, h2, h3]]
          simp only [List.cons_append, List.nil_append]
          simp only [parseStringBody, ih, Option.map_some]
          rw [hex_roundtrip c.toNat h3, Char.ofNat_toNat]
          simp [strCons]
        · rw [show escChar c = [c] from by simp [escChar, h1, h2, h3]]
          simp only [List.cons_append, List.nil_append]
          rw [parseStringBody.eq_def]
          split
          · simp_all
          · simp_all
          · simp_all
          · simp_all
          · rename_i c2 rest2 heq
            cases heq
            simp [ih, strCons]

theorem jFuel_pos (v : JValue) : 1 ≤ jFuel v := by
  cases v <;> simp [jFuel]

theorem jsonDumps_head (v : JValue) :
    ∃ cs, jsonDumps v = '\x22' :: cs ∨ jsonDumps v = '\x7b' :: cs
      ∨ jsonDumps v = '[' :: cs := by
  cases v with
  | str s => exact ⟨_, Or.inl rfl⟩
  | obj fields =>
    cases fields with
    | nil => exact ⟨_, Or.inr (Or.inl rfl)⟩
    | cons p rest => exact ⟨_, Or.inr (Or.inl rfl)⟩
  | arr elems =>
    cases elems with
    | nil => exact ⟨_, Or.inr (Or.inr rfl)⟩
    | cons v rest => exact ⟨_, Or.inr (Or.inr rfl)⟩

theorem dumpPair_eq (p : String × JValue) :
    dumpPair p = encodeString p.1 ++ (':' :: jsonDumps p.2) := by
  cases p
  rfl

theorem fieldsBlock_eq (p : String × JValue) (ps : List (String × JValue))
    (rest : List Char) :
    (dumpPair p ++ dumpFieldsTail ps) ++ rest
      = '\x22' :: (p.1.data.flatMap escChar
          ++ ('\x22' :: (':' :: (jsonDumps p.2 ++ (dumpFieldsTail ps ++ rest))))) := by
  rw [dumpPair_eq]
  simp [encodeString]

theorem parse_dumps_roundtrip : ∀ f : Nat,
    (∀ (v : JValue) (rest : List Char), jFuel v ≤ f →
      parseVal f (jsonDumps v ++ rest) = some (v, rest))
    ∧ (∀ (p : String × JValue) (ps : List (String × JValue)) (rest : List Char),
      jFuelFields (p :: ps) ≤ f → (∀ r, rest ≠ ',' :: r) →
      parseFields f ((dumpPair p ++ dumpFieldsTail ps) ++ rest)
        = some (p :: ps, rest))
    ∧ (∀ (v : JValue) (vs : List JValue) (rest : List Char),
      jFuelElems (v :: vs) ≤ f → (∀ r, rest ≠ ',' :: r) →
      parseElems f ((jsonDumps v ++ dumpElemsTail vs) ++ rest)
        = some (v :: vs, rest)) := by
  intro f
  induction f with
  | zero =>
    refine ⟨fun v rest hf => absurd hf (by have := jFuel_pos v; omega), ?_, ?_⟩
    · intro p ps rest hf _
      simp [jFuelFields] at hf
    · intro v vs rest hf _
      simp [jFuelElems] at hf
  | succ f ih =>
    obtain ⟨ihV, ihF, ihE⟩ := ih
    have partV : ∀ (v : JValue) (rest : List Char), jFuel v ≤ f + 1 →
        parseVal (f + 1) (jsonDumps v ++ rest) = some (v, rest) := by
      intro v rest hfuel
      cases v with
      | str s =>
        show parseVal (f + 1) (encodeString s ++ rest) = _
        rw [show encodeString s ++ rest
            = '\x22' :: (s.data.flatMap escChar ++ ('\x22' :: rest)) from by
          simp [encodeString]]
        simp [parseVal, parseBody_enc]
      | obj fields =>
        cases fields with
        | nil =>
          show parseVal (f + 1) (['\x7b', '\x7d'] ++ rest) = _
          simp [parseVal]
        | cons p ps =>
          have hfields : parseFields f
              ((dumpPair p ++ dumpFieldsTail ps) ++ ('\x7d' :: rest))
              = some (p :: ps, '\x7d' :: rest) := by
            apply ihF
            · have h1 : jFuel (JValue.obj (p :: ps))
                  = 1 + jFuelFields (p :: ps) := rfl
              omega
            · intro r hr
              cases hr
          have hshape : jsonDumps (.obj (p :: ps)) ++ rest
              = '\x7b' :: ((dumpPair p ++ dumpFieldsTail ps) ++ ('\x7d' :: rest)) := by
            show ('\x7b' :: ((dumpPair p ++ dumpFieldsTail ps) ++ ['\x7d'])) ++ rest = _
            simp
          rw [hshape, fieldsBlock_eq]
          rw [fieldsBlock_eq] at hfields
          simp [parseVal, hfields]
      | arr elems =>
        cases elems with
        | nil =>
          show parseVal (f + 1) (['[', ']'] ++ rest) = _
          simp [parseVal]
        | cons v vs =>
          have helems : parseElems f
              ((jsonDumps v ++ dumpElemsTail vs) ++ (']' :: rest))
              = some (v :: vs, ']' :: rest) := by
            apply ihE
            · have h1 : jFuel (JValue.arr (v :: vs))
                  = 1 + jFuelElems (v :: vs) := rfl
              omega
            · intro r hr
              cases hr
          have hshape : jsonDumps (.arr (v :: vs)) ++ rest
              = '[' :: ((jsonDumps v ++ dumpElemsTail vs) ++ (']' :: rest)) := by
            show ('[' :: ((jsonDumps v ++ dumpElemsTail vs) ++ [']'])) ++ rest = _
            simp
          rw [hshape]
          obtain ⟨cs, hh⟩ := jsonDumps_head v
          rcases hh with hh | hh | hh
          · have hexpand : (jsonDumps v ++ dumpElemsTail vs) ++ (']' :: rest)
                = '\x22' :: (cs ++ (dumpElemsTail vs ++ (']' :: rest))) := by
              rw [hh]
              simp
            rw [hexpand]
            rw [hexpand] at helems
            simp [parseVal, helems]
          · have hexpand : (jsonDumps v ++ dumpElemsTail vs) ++ (']' :: rest)
                = '\x7b' :: (cs ++ (dumpElemsTail vs ++ (']' :: rest))) := by
              rw [hh]
              simp
            rw [hexpand]
            rw [hexpand] at helems
            simp [parseVal, helems]
          · have hexpand : (jsonDumps v ++ dumpElemsTail vs) ++ (']' :: rest)
                = '[' :: (cs ++ (dumpElemsTail vs ++ (']' :: rest))) := by
              rw [hh]
              simp
            rw [hexpand]
            rw [hexpand] at helems
            simp [parseVal, helems]
    refine ⟨partV, ?_, ?_⟩
    · intro p ps rest hfuel hnc
      rw [fieldsBlock_eq]
      have hp : jFuelPair p = jFuel p.2 := by cases p; rfl
      cases ps with
      | nil =>
        have hval2 : parseVal f (jsonDumps p.2 ++ rest) = some (p.2, rest) := by
          apply ihV
          have h1 : jFuelFields [p]
              = 1 + Nat.max (jFuelPair p) (jFuelFields []) := rfl
          have h2 : jFuel p.2 ≤ Nat.max (jFuelPair p) (jFuelFields []) :=
            hp ▸ Nat.le_max_left _ _
          omega
        have harg : dumpFieldsTail ([] : List (String × JValue)) ++ rest = rest := by
          simp [dumpFieldsTail]
        rw [harg]
        simp only [parseFields, parseBody_enc, hval2]
      | cons q qs =>
        have htail : dumpFieldsTail (q :: qs) ++ rest
            = ',' :: ((dumpPair q ++ dumpFieldsTail qs) ++ rest) := by
          simp [dumpFieldsTail]
        have hval2 : parseVal f
            (jsonDumps p.2 ++ (',' :: ((dumpPair q ++ dumpFieldsTail qs) ++ rest)))
            = some (p.2, ',' :: ((dumpPair q ++ dumpFieldsTail qs) ++ rest)) := by
          apply ihV
          have h1 : jFuelFields (p :: q :: qs)
              = 1 + Nat.max (jFuelPair p) (jFuelFields (q :: qs)) := rfl
          have h2 : jFuel p.2 ≤ Nat.max (jFuelPair p) (jFuelFields (q :: qs)) :=
            hp ▸ Nat.le_max_left _ _
          omega
        have hrec : parseFields f ((dumpPair q ++ dumpFieldsTail qs) ++ rest)
            = some (q :: qs, rest) := by
          apply ihF _ _ _ _ hnc
          have h1 : jFuelFields (p :: q :: qs)
              = 1 + Nat.max (jFuelPair p) (jFuelFields (q :: qs)) := rfl
          have h2 : jFuelFields (q :: qs)
              ≤ Nat.max (jFuelPair p) (jFuelFields (q :: qs)) := Nat.le_max_right _ _
          omega
        rw [htail]
        simp only [parseFields, parseBody_enc, hval2, hrec]
    · intro v vs rest hfuel hnc
      rw [show (jsonDumps v ++ dumpElemsTail vs) ++ rest
          = jsonDumps v ++ (dumpElemsTail vs ++ rest) from by simp]
      cases vs with
      | nil =>
        have hval2 : parseVal f (jsonDumps v ++ rest) = some (v, rest) := by
          apply ihV
          have h1 : jFuelElems [v] = 1 + Nat.max (jFuel v) (jFuelElems []) := rfl
          have h2 : jFuel v ≤ Nat.max (jFuel v) (jFuelElems []) :=
            Nat.le_max_left _ _
          omega
        have harg : dumpElemsTail ([] : List JValue) ++ rest = rest := by
          simp [dumpElemsTail]
        rw [harg]
        simp only [parseElems, hval2]
      | cons w ws =>
        have htail : dumpElemsTail (w :: ws) ++ rest
            = ',' :: ((jsonDumps w ++ dumpElemsTail ws) ++ rest) := by
          simp [dumpElemsTail]
        have hval2 : parseVal f
            (jsonDumps v ++ (',' :: ((jsonDumps w ++ dumpElemsTail ws) ++ rest)))
            = some (v, ',' :: ((jsonDumps w ++ dumpElemsTail ws) ++ rest)) := by
          apply ihV
          have h1 : jFuelElems (v :: w :: ws)
              = 1 + Nat.max (jFuel v) (jFuelElems (w :: ws)) := rfl
          have h2 : jFuel v ≤ Nat.max (jFuel v) (jFuelElems (w :: ws)) :=
            Nat.le_max_left _ _
          omega
        have hrec : parseElems f ((jsonDumps w ++ dumpElemsTail ws) ++ rest)
            = some (w :: ws, rest) := by
          apply ihE _ _ _ _ hnc
          have h1 : jFuelElems (v :: w :: ws)
              = 1 + Nat.max (jFuel v) (jFuelElems (w :: ws)) := rfl
          have h2 : jFuelElems (w :: ws)
              ≤ Nat.max (jFuel v) (jFuelElems (w :: ws)) := Nat.le_max_right _ _
          omega
        rw [htail]
        simp only [parseElems, hval2, hrec]

theorem dumpPair_length (p : String × JValue) :
    (dumpPair p).length
      = (encodeString p.1).length + 1 + (jsonDumps p.2).length := by
  rw [dumpPair_eq]
  simp
  omega

theorem encodeString_length (s : String) :
    (encodeString s).length = (s.data.flatMap escChar).length + 2 := by
  simp [encodeString]

mutual

theorem jFuel_le_dumps : (v : JValue) → jFuel v ≤ (jsonDumps v).length
  | .str s => by
    have h := encodeString_length s
    have hf : jFuel (.str s) = 1 := rfl
    show jFuel (.str s) ≤ (encodeString s).length
    omega
  | .obj [] => by
    simp [jFuel, jFuelFields, jsonDumps]
  | .obj (p :: ps) => by
    have h := jFuelFields_le (p :: ps)
    have hl : (jsonDumps (.obj (p :: ps))).length
        = (dumpPair p).length + (dumpFieldsTail ps).length + 2 := by
      show ('\x7b' :: ((dumpPair p ++ dumpFieldsTail ps) ++ ['\x7d'])).length = _
      simp
      try omega
    have ht : (dumpFieldsTail (p :: ps)).length
        = (dumpPair p).length + (dumpFieldsTail ps).length + 1 := by
      show (',' :: (dumpPair p ++ dumpFieldsTail ps)).length = _
      simp
      try omega
    have hf : jFuel (.obj (p :: ps)) = 1 + jFuelFields (p :: ps) := rfl
    omega
  | .arr [] => by
    simp [jFuel, jFuelElems, jsonDumps]
  | .arr (v :: vs) => by
    have h := jFuelElems_le (v :: vs)
    have hl : (jsonDumps (.arr (v :: vs))).length
        = (jsonDumps v).length + (dumpElemsTail vs).length + 2 := by
      show ('[' :: ((jsonDumps v ++ dumpElemsTail vs) ++ [']'])).length = _
      simp
      try omega
    have ht : (dumpElemsTail (v :: vs)).length
        = (jsonDumps v).length + (dumpElemsTail vs).length + 1 := by
      show (',' :: (jsonDumps v ++ dumpElemsTail vs)).length = _
      simp
      try omega
    have hf : jFuel (.arr (v :: vs)) = 1 + jFuelElems (v :: vs) := rfl
    omega

theorem jFuelPair_le : (p : String × JValue) → jFuelPair p ≤ (dumpPair p).length
  | (k, v) => by
    have h := jFuel_le_dumps v
    have hdp := dumpPair_length (k, v)
    have hes := encodeString_length k
    have hf : jFuelPair (k, v) = jFuel v := rfl
    have hc : (jsonDumps ((k, v) : String × JValue).2).length
        = (jsonDumps v).length := rfl
    have hb : (encodeString ((k, v) : String × JValue).1).length
        = (encodeString k).length := rfl
    omega

theorem jFuelFields_le : (ps : List (String × JValue)) →
    jFuelFields ps ≤ (dumpFieldsTail ps).length
  | [] => by simp [jFuelFields, dumpFieldsTail]
  | p :: rest => by
    have h1 := jFuelPair_le p
    have h2 := jFuelFields_le rest
    have hf : jFuelFields (p :: rest)
        = 1 + Nat.max (jFuelPair p) (jFuelFields rest) := rfl
    have ht : (dumpFieldsTail (p :: rest)).length
        = (dumpPair p).length + (dumpFieldsTail rest).length + 1 := by
      show (',' :: (dumpPair p ++ dumpFieldsTail rest)).length = _
      simp
      try omega
    have hub : Nat.max (jFuelPair p) (jFuelFields rest)
        ≤ (dumpPair p).length + (dumpFieldsTail rest).length :=
      Nat.max_le.mpr ⟨by omega, by omega⟩
    omega

theorem jFuelElems_le : (vs : List JValue) →
    jFuelElems vs ≤ (dumpElemsTail vs).length
  | [] => by simp [jFuelElems, dumpElemsTail]
  | v :: rest => by
    have h1 := jFuel_le_dumps v
    have h2 := jFuelElems_le rest
    have hf : jFuelElems (v :: rest)
        = 1 + Nat.max (jFuel v) (jFuelElems rest) := rfl
    have ht : (dumpElemsTail (v :: rest)).length
        = (jsonDumps v).length + (dumpElemsTail rest).length + 1 := by
      show (',' :: (jsonDumps v ++ dumpElemsTail rest)).length = _
      simp
      try omega
    have hub : Nat.max (jFuel v) (jFuelElems rest)
        ≤ (jsonDumps v).length + (dumpElemsTail rest).length :=
      Nat.max_le.mpr ⟨by omega, by omega⟩
    omega

end

/-- The serializer/parser pair round-trips every JSON value. -/
theorem parseJson_dumps (v : JValue) : parseJson ⟨jsonDumps v⟩ = some v := by
  unfold parseJson
  have hdata : (String.mk (jsonDumps v)).data = jsonDumps v := rfl
  rw [hdata]
  have h := (parse_dumps_roundtrip ((jsonDumps v).length + 1)).1 v []
    (by have := jFuel_le_dumps v; omega)
  rw [List.append_nil] at h
  rw [h]

/-! ## C5 -/

/-- C5: for every raw payload accepted by the parser, serializing the payload
to its persisted record, reading the record back and parsing it — the
create-then-startup-load pipeline — yields the same Theme, attribute for
attribute, as parsing the payload directly. -/
theorem C5_roundtrip :
    ∀ (raw : RawDict) (t : Theme), parse_theme raw = .ok t →
      reload_theme raw = .ok t := by
  intro raw t h
  unfold reload_theme read_record serialize_record
  rw [parseJson_dumps (.obj raw)]
  simpa [Bind.bind, Except.bind] using h

/-- C5 witness: the round trip at a payload whose name exercises every JSON
escape class (quote, backslash, control characters, non-ASCII text). -/
theorem C5_witness :
    parse_theme rawThemeTricky = .ok themeTricky
    ∧ reload_theme rawThemeTricky = .ok themeTricky :=
  ⟨rfl, C5_roundtrip rawThemeTricky themeTricky rfl⟩
